import Mathlib

/-!
# CR7-Script front end: a shallow embedding

This file embeds the lexical scanner (`tokenize`) and the recursive-descent
recognizer (`CR7Parser`) of the CR7-Script repository (`cr7_compiler.py`,
`cr7_gui.py`) and proves/refutes the specification claims about them.

The scanner is shared verbatim between the two source files; the recognizer
is embedded from `cr7_gui.py` (the extended variant with function-call
recognition and keyword-as-function-name support); the `cr7_compiler.py`
variant differs only inside `parse_function` (name restricted to `ID`) and
`parse_factor` (no call support), and is identical in every routine the
claims about statement parsing reference.

Python `re` alternation semantics are modelled faithfully: at each position
the alternatives of `token_regex` are tried in declaration order and the
first alternative that matches at that position wins (each alternative
itself matching greedily).  Character classes are modelled at ASCII level
(`\d`, `\w`, `[A-Za-z_]`), matching the source language's alphabet.
-/

/-- A token is a pair (category, lexeme), as built by `tokenize`. -/
abbrev Token := String × String

/-! ## Scanner (`tokenize` in both source files) -/

def isDigitC (c : Char) : Bool := '0' ≤ c && c ≤ '9'

def isAlphaC (c : Char) : Bool := ('a' ≤ c && c ≤ 'z') || ('A' ≤ c && c ≤ 'Z')

/-- `\w`: word character. -/
def isWordC (c : Char) : Bool := isAlphaC c || isDigitC c || c = '_'

/-- The operator character class `[+\-*/<>!=]`. -/
def isOpC (c : Char) : Bool :=
  c = '+' || c = '-' || c = '*' || c = '/' || c = '<' || c = '>' || c = '!' || c = '='

def isSkipC (c : Char) : Bool := c = ' ' || c = '\t'

/-- Greedy match of `\d+(\.\d+)?` minus its first (already consumed) digit:
returns (rest of the lexeme, remaining input). -/
def numScan (s : List Char) : List Char × List Char :=
  if (s.dropWhile isDigitC).head? = some '.'
      && !((s.dropWhile isDigitC).tail.takeWhile isDigitC = []) then
    (s.takeWhile isDigitC ++ '.' :: (s.dropWhile isDigitC).tail.takeWhile isDigitC,
      (s.dropWhile isDigitC).tail.dropWhile isDigitC)
  else (s.takeWhile isDigitC, s.dropWhile isDigitC)

/-- Greedy match of `"[^"]*"` minus its opening quote: given the input after
the opening `"`, returns the full lexeme (quotes included) and the remaining
input, or `none` when no closing quote exists (the pattern fails). -/
def strScan (rest : List Char) : Option (List Char × List Char) :=
  match rest.dropWhile (fun c => !(c = '"')) with
  | '"' :: r2 => some ('"' :: rest.takeWhile (fun c => !(c = '"')) ++ ['"'], r2)
  | _ => none

/-- Whether `#\w+` can match: the character after `#` is a word character. -/
def headIsWordC : List Char → Bool
  | [] => false
  | r :: _ => isWordC r

/-- One step of `re.finditer(token_regex, code)`: the alternatives of
`token_specification` tried in order at the current position, the first
match winning, each matching greedily.  Returns (group name, lexeme,
remaining input).  Always succeeds (`MISMATCH` is `.`, `NEWLINE` is `\n`). -/
def nextMatch (c : Char) (rest : List Char) : String × List Char × List Char :=
  if c = '#' && headIsWordC rest then
    ("META", c :: rest.takeWhile isWordC, rest.dropWhile isWordC)
  else if c = '/' && rest.head? = some '/' then
    ("COMMENT", (c :: rest).takeWhile (fun x => !(x = '\n')),
      (c :: rest).dropWhile (fun x => !(x = '\n')))
  else if isDigitC c then
    ("NUMBER", c :: (numScan rest).1, (numScan rest).2)
  else if c = '=' then ("ASSIGN", [c], rest)
  else if c = ',' then ("COMMA", [c], rest)
  else if c = ';' then ("END", [c], rest)
  else if c = '(' then ("LPAREN", [c], rest)
  else if c = ')' then ("RPAREN", [c], rest)
  else if c = '{' then ("LBRACE", [c], rest)
  else if c = '}' then ("RBRACE", [c], rest)
  else if c = '"' then
    (strScan rest).elim ("MISMATCH", [c], rest) (fun p => ("STRING", p.1, p.2))
  else if isAlphaC c || c = '_' then
    ("ID", c :: rest.takeWhile isWordC, rest.dropWhile isWordC)
  else if isOpC c then
    ("OP", (c :: rest).takeWhile isOpC, (c :: rest).dropWhile isOpC)
  else if c = '\n' then ("NEWLINE", [c], rest)
  else if isSkipC c then
    ("SKIP", (c :: rest).takeWhile isSkipC, (c :: rest).dropWhile isSkipC)
  else ("MISMATCH", [c], rest)

theorem dropWhile_length_le (p : Char → Bool) (l : List Char) :
    (l.dropWhile p).length ≤ l.length := by
  induction l with
  | nil => simp [List.dropWhile]
  | cons x xs ih =>
    rw [List.dropWhile_cons]
    split
    · simp only [List.length_cons]
      omega
    · exact Nat.le_refl _

theorem dropWhile_cons_length_le (p : Char → Bool) (c : Char) (rest : List Char)
    (h : p c = true) : ((c :: rest).dropWhile p).length ≤ rest.length := by
  rw [List.dropWhile_cons_of_pos h]
  exact dropWhile_length_le p rest

theorem numScan_rest_le (s : List Char) : (numScan s).2.length ≤ s.length := by
  unfold numScan
  have h1 := dropWhile_length_le isDigitC s
  split
  · rename_i hcond
    simp only [Bool.and_eq_true, decide_eq_true_eq] at hcond
    have h2 := dropWhile_length_le isDigitC (s.dropWhile isDigitC).tail
    have h3 : (s.dropWhile isDigitC).tail.length + 1 ≤ s.length := by
      rcases hr : s.dropWhile isDigitC with _ | ⟨d, r2⟩
      · rw [hr] at hcond; simp at hcond
      · rw [hr] at h1
        simp only [List.length_cons] at h1
        simp only [hr, List.tail_cons]
        omega
    show ((s.dropWhile isDigitC).tail.dropWhile isDigitC).length ≤ s.length
    omega
  · exact h1

theorem strScan_rest_le (rest lex r : List Char) (h : strScan rest = some (lex, r)) :
    r.length ≤ rest.length := by
  unfold strScan at h
  have h1 := dropWhile_length_le (fun c => !(c = '"')) rest
  split at h
  · rename_i r2 heq
    rw [heq] at h1
    simp only [List.length_cons] at h1
    have hr2 : r2 = r := by
      simp only [Option.some.injEq, Prod.mk.injEq] at h
      exact h.2
    subst hr2
    omega
  · simp at h

theorem nextMatch_rest_le (c : Char) (rest : List Char) :
    (nextMatch c rest).2.2.length ≤ rest.length := by
  unfold nextMatch
  by_cases h1 : (c = '#' && headIsWordC rest) = true
  · rw [if_pos h1]
    exact dropWhile_length_le isWordC rest
  · rw [if_neg h1]
    by_cases h2 : (c = '/' && rest.head? = some '/') = true
    · rw [if_pos h2]
      simp only [Bool.and_eq_true, decide_eq_true_eq] at h2
      exact dropWhile_cons_length_le (fun x => !(x = '\n')) c rest (by simp [h2.1])
    · rw [if_neg h2]
      by_cases h3 : isDigitC c = true
      · rw [if_pos h3]
        exact numScan_rest_le rest
      · rw [if_neg h3]
        by_cases h4 : c = '='
        · rw [if_pos h4]
        · rw [if_neg h4]
          by_cases h5 : c = ','
          · rw [if_pos h5]
          · rw [if_neg h5]
            by_cases h6 : c = ';'
            · rw [if_pos h6]
            · rw [if_neg h6]
              by_cases h7 : c = '('
              · rw [if_pos h7]
              · rw [if_neg h7]
                by_cases h8 : c = ')'
                · rw [if_pos h8]
                · rw [if_neg h8]
                  by_cases h9 : c = '{'
                  · rw [if_pos h9]
                  · rw [if_neg h9]
                    by_cases h10 : c = '}'
                    · rw [if_pos h10]
                    · rw [if_neg h10]
                      by_cases h11 : c = '"'
                      · rw [if_pos h11]
                        rcases hs : strScan rest with _ | ⟨lex, r⟩
                        · simp [hs]
                        · simp only [hs, Option.elim]
                          exact strScan_rest_le rest lex r hs
                      · rw [if_neg h11]
                        by_cases h12 : (isAlphaC c || c = '_') = true
                        · rw [if_pos h12]
                          exact dropWhile_length_le isWordC rest
                        · rw [if_neg h12]
                          by_cases h13 : isOpC c = true
                          · rw [if_pos h13]
                            exact dropWhile_cons_length_le isOpC c rest h13
                          · rw [if_neg h13]
                            by_cases h14 : c = '\n'
                            · rw [if_pos h14]
                            · rw [if_neg h14]
                              by_cases h15 : isSkipC c = true
                              · rw [if_pos h15]
                                exact dropWhile_cons_length_le isSkipC c rest h15
                              · rw [if_neg h15]

/-- The token stream of `re.finditer`, fuel-indexed so it computes by
structural recursion (each match consumes at least one character, so fuel
equal to the input length always suffices; the fuel-exhaustion arm is
unreachable from `rawScan`). -/
def rawScanF : Nat → List Char → List (String × List Char)
  | _, [] => []
  | 0, _ :: _ => []
  | n + 1, c :: rest =>
    ((nextMatch c rest).1, (nextMatch c rest).2.1) ::
      rawScanF n (nextMatch c rest).2.2

/-- The token stream of `re.finditer`: the ordered raw matches tiling the
whole source text. -/
def rawScan (code : List Char) : List (String × List Char) :=
  rawScanF code.length code

theorem rawScanF_fuel_eq :
    ∀ (n m : Nat) (s : List Char), s.length ≤ n → s.length ≤ m →
      rawScanF n s = rawScanF m s := by
  intro n
  induction n with
  | zero =>
    intro m s hn _
    have hnil : s = [] := by
      cases s with
      | nil => rfl
      | cons c r => simp at hn
    subst hnil
    cases m <;> rfl
  | succ n ih =>
    intro m s hn hm
    cases s with
    | nil => cases m <;> rfl
    | cons c rest =>
      cases m with
      | zero => simp at hm
      | succ m =>
        show _ :: rawScanF n (nextMatch c rest).2.2 =
          _ :: rawScanF m (nextMatch c rest).2.2
        have hr := nextMatch_rest_le c rest
        simp only [List.length_cons] at hn hm
        rw [ih m (nextMatch c rest).2.2 (by omega) (by omega)]

theorem rawScan_cons (c : Char) (rest : List Char) :
    rawScan (c :: rest) =
      ((nextMatch c rest).1, (nextMatch c rest).2.1) ::
        rawScan (nextMatch c rest).2.2 := by
  show rawScanF (c :: rest).length (c :: rest) = _
  have h1 : rawScanF (c :: rest).length (c :: rest) =
      ((nextMatch c rest).1, (nextMatch c rest).2.1) ::
        rawScanF rest.length (nextMatch c rest).2.2 := rfl
  rw [h1]
  unfold rawScan
  rw [rawScanF_fuel_eq rest.length (nextMatch c rest).2.2.length (nextMatch c rest).2.2
    (nextMatch_rest_le c rest) (Nat.le_refl _)]

/-- The `KEYWORDS` table, in its Python insertion order (`cr7_compiler.py`;
`cr7_gui.py` lists OUTPUT before INPUT, which classifies identically since
the reserved sets are pairwise disjoint). -/
def KEYWORDS : List (String × List String) :=
  [("FUNCTION", ["play", "kickoff", "whistle"]),
   ("TYPE", ["goal", "player", "flag", "match"]),
   ("CONTROL", ["referee", "bench", "practice", "drill"]),
   ("INPUT", ["listen"]),
   ("OUTPUT", ["announce"]),
   ("META", ["#import", "stadium"])]

/-- Keyword reclassification of an `ID` match: the first keyword category
whose reserved set contains the lexeme wins; otherwise the token stays `ID`. -/
def classifyId (v : String) : String :=
  match KEYWORDS.find? (fun g => g.2.contains v) with
  | some g => g.1 ++ "_KEYWORD"
  | none => "ID"

/-- The body of the `tokenize` loop, applied to the raw match stream:
comments/whitespace/newlines are discarded, `META` matches become
`META_KEYWORD`, identifiers go through keyword reclassification, and a
`MISMATCH` raises `RuntimeError` (modelled as `Except.error`). -/
def tokensFromRaw : List (String × List Char) → Except String (List Token)
  | [] => .ok []
  | (k, lex) :: rs =>
    if k = "COMMENT" then tokensFromRaw rs
    else if k = "META" then
      (tokensFromRaw rs).map (fun ts => ("META_KEYWORD", String.mk lex) :: ts)
    else if k = "ID" then
      (tokensFromRaw rs).map (fun ts => (classifyId (String.mk lex), String.mk lex) :: ts)
    else if k = "SKIP" || k = "NEWLINE" then tokensFromRaw rs
    else if k = "MISMATCH" then .error ("Unexpected token: " ++ String.mk lex)
    else (tokensFromRaw rs).map (fun ts => (k, String.mk lex) :: ts)

/-- `tokenize(code)`: the full scanner, appending the end-of-input token. -/
def tokenize (code : List Char) : Except String (List Token) :=
  (tokensFromRaw (rawScan code)).map (fun ts => ts ++ [("EOF", "")])

/-! ## Recognizer (`CR7Parser` in `cr7_gui.py`)

The parser object's mutable state is the cursor `pos` and the emitted
output lines (`print`/`self.log`), modelled as `PState`.  `error` prints a
diagnostic line and exits, modelled as the `PErr.diag` outcome.  Reading
`self.tokens[self.pos]` out of range would raise `IndexError`, modelled as
the distinct `PErr.oob` outcome.  Python's unbounded recursion is modelled
with explicit fuel; `PErr.fuel` reports fuel exhaustion (it corresponds to
no Python outcome: a run that only ever exhausts any amount of fuel is a
run that does not terminate). -/

structure Diag where
  msg : String
  kind : String
  value : String
deriving DecidableEq

inductive PErr where
  | diag : Diag → PErr
  | fuel : PErr
  | oob : PErr
deriving DecidableEq

structure PState where
  pos : Nat
  log : List String
deriving DecidableEq

def M (α : Type) : Type := PState → Except PErr α × PState

instance : Monad M where
  pure a := fun s => (.ok a, s)
  bind x f := fun s =>
    match x s with
    | (.ok a, s1) => f a s1
    | (.error e, s1) => (.error e, s1)

theorem bind_run {α β : Type} (x : M α) (f : α → M β) (s : PState) :
    (x >>= f) s = match x s with
      | (.ok a, s1) => f a s1
      | (.error e, s1) => (.error e, s1) := rfl

theorem pure_run {α : Type} (a : α) (s : PState) : (pure a : M α) s = (.ok a, s) := rfl

/-- Fuel exhaustion. -/
def mfuel {α : Type} : M α := fun s => (.error .fuel, s)

/-- `self.log(msg)` / `print(msg)`: append one output line. -/
def logM (msg : String) : M Unit := fun s => (.ok (), ⟨s.pos, s.log ++ [msg]⟩)

/-- `self.current_token()`: read `self.tokens[self.pos]`. -/
def curTok (ts : List Token) : M Token := fun s =>
  match ts.get? s.pos with
  | some t => (.ok t, s)
  | none => (.error .oob, s)

/-- `self.lookahead(1)`: the next token, or `("EOF","")` past the end. -/
def lookTok (ts : List Token) : M Token := fun s =>
  (.ok (ts.getD (s.pos + 1) ("EOF", "")), s)

/-- `self.pos += 1`. -/
def advance : M Unit := fun s => (.ok (), ⟨s.pos + 1, s.log⟩)

/-- The diagnostic line printed by `error`, with msg, value and kind interpolated. -/
def errLine (msg kind value : String) : String :=
  "[Syntax Error] " ++ msg ++ " at token '" ++ value ++ "' (type " ++ kind ++ ")"

/-- `self.error(msg, kind, value)`: log the diagnostic line and abort. -/
def errKV {α : Type} (msg kind value : String) : M α := fun s =>
  (.error (.diag ⟨msg, kind, value⟩), ⟨s.pos, s.log ++ [errLine msg kind value]⟩)

/-- `self.error(msg)` with no actuals: reads the current token first. -/
def errHere {α : Type} (ts : List Token) (msg : String) : M α := do
  let t ← curTok ts
  errKV msg t.1 t.2

/-- The message "Expected " followed by the expected type, with the
parenthesized expected value appended when one was given. -/
def expMsg (k : String) (v? : Option String) : String :=
  "Expected " ++ k ++ (match v? with
    | some v => "('" ++ v ++ "')"
    | none => "")

/-- `self.match(expected_type, expected_value)`. -/
def matchTok (ts : List Token) (k : String) (v? : Option String) : M String := do
  let t ← curTok ts
  if t.1 = k ∧ (v? = none ∨ v? = some t.2) then do
    advance
    pure t.2
  else
    errKV (expMsg k v?) t.1 t.2

/-! The grammar procedures.  Each `while` loop of the source becomes a
fuel-indexed recursive function; procedures containing no recursion or
loops are plain definitions that pass the fuel through. -/

mutual

/-- `parse_expr`: Term (('+'|'-') Term)*. -/
def parse_expr (ts : List Token) : Nat → M Unit
  | 0 => mfuel
  | n + 1 => do
    parse_term ts n
    expr_loop ts n

/-- The `while` loop of `parse_expr`. -/
def expr_loop (ts : List Token) : Nat → M Unit
  | 0 => mfuel
  | n + 1 => do
    let t ← curTok ts
    if t.1 = "OP" ∧ (t.2 = "+" ∨ t.2 = "-") then do
      _ ← matchTok ts "OP" none
      parse_term ts n
      expr_loop ts n
    else pure ()

/-- `parse_term`: Factor (('*'|'/') Factor)*. -/
def parse_term (ts : List Token) : Nat → M Unit
  | 0 => mfuel
  | n + 1 => do
    parse_factor ts n
    term_loop ts n

/-- The `while` loop of `parse_term`. -/
def term_loop (ts : List Token) : Nat → M Unit
  | 0 => mfuel
  | n + 1 => do
    let t ← curTok ts
    if t.1 = "OP" ∧ (t.2 = "*" ∨ t.2 = "/") then do
      _ ← matchTok ts "OP" none
      parse_factor ts n
      term_loop ts n
    else pure ()

/-- `parse_factor` (`cr7_gui.py`): identifier/keyword name, call with
arguments when a `(` follows (LL(2)), number/string literal, or
parenthesized expression. -/
def parse_factor (ts : List Token) : Nat → M Unit
  | 0 => mfuel
  | n + 1 => do
    let t ← curTok ts
    if t.1 = "ID" ∨ t.1 = "FUNCTION_KEYWORD" then do
      let la ← lookTok ts
      if la.1 = "LPAREN" then do
        let ident ← matchTok ts t.1 none
        _ ← matchTok ts "LPAREN" none
        let u ← curTok ts
        if ¬ (u.1 = "RPAREN") then do
          parse_expr ts n
          args_loop ts n
        else pure ()
        _ ← matchTok ts "RPAREN" none
        logM ("→ Function call parsed (" ++ ident ++ ")")
      else do
        _ ← matchTok ts t.1 none
        pure ()
    else if t.1 = "NUMBER" ∨ t.1 = "STRING" then do
      _ ← matchTok ts t.1 none
      pure ()
    else if t.1 = "LPAREN" then do
      _ ← matchTok ts "LPAREN" none
      parse_expr ts n
      _ ← matchTok ts "RPAREN" none
      pure ()
    else errHere ts "Invalid factor"

/-- The argument `while` loop of `parse_factor`'s call branch. -/
def args_loop (ts : List Token) : Nat → M Unit
  | 0 => mfuel
  | n + 1 => do
    let t ← curTok ts
    if t.1 = "COMMA" then do
      _ ← matchTok ts "COMMA" none
      parse_expr ts n
      args_loop ts n
    else pure ()

end

/-- `parse_condition`: Expr RelOp Expr (any `OP` accepted as RelOp). -/
def parse_condition (ts : List Token) (n : Nat) : M Unit := do
  parse_expr ts n
  let t ← curTok ts
  if t.1 = "OP" then do
    _ ← matchTok ts "OP" none
    parse_expr ts n
  else errHere ts "Expected relational operator in condition"

/-- `parse_declaration`: TypeKw Identifier ('=' Expr)? ';'. -/
def parse_declaration (ts : List Token) (n : Nat) : M Unit := do
  _ ← matchTok ts "TYPE_KEYWORD" none
  _ ← matchTok ts "ID" none
  let t ← curTok ts
  if t.1 = "ASSIGN" then do
    _ ← matchTok ts "ASSIGN" none
    parse_expr ts n
  else pure ()
  _ ← matchTok ts "END" none
  logM "→ Declaration parsed"

/-- `parse_assignment`: Identifier '=' Expr ';'. -/
def parse_assignment (ts : List Token) (n : Nat) : M Unit := do
  _ ← matchTok ts "ID" none
  _ ← matchTok ts "ASSIGN" none
  parse_expr ts n
  _ ← matchTok ts "END" none
  logM "→ Assignment parsed"

/-- `parse_declaration_in_for`: declaration without the trailing ';'. -/
def parse_declaration_in_for (ts : List Token) (n : Nat) : M Unit := do
  _ ← matchTok ts "TYPE_KEYWORD" none
  _ ← matchTok ts "ID" none
  let t ← curTok ts
  if t.1 = "ASSIGN" then do
    _ ← matchTok ts "ASSIGN" none
    parse_expr ts n
  else pure ()
  logM "→ For-init declaration parsed"

/-- `parse_assignment_in_for`: `i = Expr`, or `i++` / `i--`. -/
def parse_assignment_in_for (ts : List Token) (n : Nat) : M Unit := do
  _ ← matchTok ts "ID" none
  let t ← curTok ts
  if t.1 = "ASSIGN" then do
    _ ← matchTok ts "ASSIGN" none
    parse_expr ts n
    logM "→ For-update parsed (assignment)"
  else if t.1 = "OP" ∧ (t.2 = "++" ∨ t.2 = "--") then do
    _ ← matchTok ts "OP" none
    logM "→ For-update parsed (increment/decrement)"
  else errHere ts "Expected '=' or '++'/'--' in for update"

/-- `parse_output`: 'announce' Expr ';'. -/
def parse_output (ts : List Token) (n : Nat) : M Unit := do
  _ ← matchTok ts "OUTPUT_KEYWORD" none
  parse_expr ts n
  _ ← matchTok ts "END" none
  logM "→ Output parsed"

/-- `parse_input`: 'listen' Identifier ';'. -/
def parse_input (ts : List Token) (_n : Nat) : M Unit := do
  _ ← matchTok ts "INPUT_KEYWORD" none
  _ ← matchTok ts "ID" none
  _ ← matchTok ts "END" none
  logM "→ Input parsed"

/-- `parse_return`: 'whistle' Expr ';'. -/
def parse_return (ts : List Token) (n : Nat) : M Unit := do
  _ ← matchTok ts "FUNCTION_KEYWORD" (some "whistle")
  parse_expr ts n
  _ ← matchTok ts "END" none
  logM "→ Return parsed"

mutual

/-- `parse_statement_list`: the `while` loop over statements, stopping at
`EOF` or `}`. -/
def parse_statement_list (ts : List Token) : Nat → M Unit
  | 0 => mfuel
  | n + 1 => do
    let t ← curTok ts
    if t.1 = "EOF" ∨ t.1 = "RBRACE" then pure ()
    else do
      parse_statement ts n
      parse_statement_list ts n

/-- `parse_statement`: dispatch on the current token's category (and, for
control keywords, its lexeme); bare `bench` returns without consuming. -/
def parse_statement (ts : List Token) : Nat → M Unit
  | 0 => mfuel
  | n + 1 => do
    let t ← curTok ts
    if t.1 = "TYPE_KEYWORD" then parse_declaration ts n
    else if t.1 = "ID" then parse_assignment ts n
    else if t.1 = "CONTROL_KEYWORD" then
      if t.2 = "referee" then parse_if ts n
      else if t.2 = "practice" then parse_while ts n
      else if t.2 = "drill" then parse_for ts n
      else if t.2 = "bench" then pure ()
      else errKV ("Unknown control keyword '" ++ t.2 ++ "'") t.1 t.2
    else if t.1 = "OUTPUT_KEYWORD" then parse_output ts n
    else if t.1 = "INPUT_KEYWORD" then parse_input ts n
    else if t.1 = "FUNCTION_KEYWORD" ∧ t.2 = "whistle" then parse_return ts n
    else errKV ("Unexpected statement start: " ++ t.2) t.1 t.2

/-- `parse_if`: 'referee' '(' Condition ')' Block ('bench' Block)?. -/
def parse_if (ts : List Token) : Nat → M Unit
  | 0 => mfuel
  | n + 1 => do
    _ ← matchTok ts "CONTROL_KEYWORD" (some "referee")
    _ ← matchTok ts "LPAREN" none
    parse_condition ts n
    _ ← matchTok ts "RPAREN" none
    _ ← matchTok ts "LBRACE" none
    parse_statement_list ts n
    _ ← matchTok ts "RBRACE" none
    let t ← curTok ts
    if t.2 = "bench" then do
      _ ← matchTok ts "CONTROL_KEYWORD" (some "bench")
      _ ← matchTok ts "LBRACE" none
      parse_statement_list ts n
      _ ← matchTok ts "RBRACE" none
      pure ()
    else pure ()
    logM "→ If statement parsed"

/-- `parse_while`: 'practice' '(' Condition ')' Block. -/
def parse_while (ts : List Token) : Nat → M Unit
  | 0 => mfuel
  | n + 1 => do
    _ ← matchTok ts "CONTROL_KEYWORD" (some "practice")
    _ ← matchTok ts "LPAREN" none
    parse_condition ts n
    _ ← matchTok ts "RPAREN" none
    _ ← matchTok ts "LBRACE" none
    parse_statement_list ts n
    _ ← matchTok ts "RBRACE" none
    logM "→ While parsed"

/-- `parse_for`: 'drill' '(' init? ';' Condition? ';' update? ')' Block. -/
def parse_for (ts : List Token) : Nat → M Unit
  | 0 => mfuel
  | n + 1 => do
    _ ← matchTok ts "CONTROL_KEYWORD" (some "drill")
    _ ← matchTok ts "LPAREN" none
    let t ← curTok ts
    if t.1 = "TYPE_KEYWORD" then parse_declaration_in_for ts n
    else if t.1 = "ID" then parse_assignment_in_for ts n
    else pure ()
    _ ← matchTok ts "END" none
    let u ← curTok ts
    if ¬ (u.1 = "END") then parse_condition ts n else pure ()
    _ ← matchTok ts "END" none
    let w ← curTok ts
    if w.1 = "ID" then parse_assignment_in_for ts n else pure ()
    _ ← matchTok ts "RPAREN" none
    _ ← matchTok ts "LBRACE" none
    parse_statement_list ts n
    _ ← matchTok ts "RBRACE" none
    logM "→ For parsed"

end

/-- The `while` loop of `parse_param_list`. -/
def param_loop (ts : List Token) : Nat → M Unit
  | 0 => mfuel
  | n + 1 => do
    let t ← curTok ts
    if t.1 = "COMMA" then do
      _ ← matchTok ts "COMMA" none
      _ ← matchTok ts "TYPE_KEYWORD" none
      _ ← matchTok ts "ID" none
      param_loop ts n
    else pure ()

/-- `parse_param_list`: TypeKw Identifier (',' TypeKw Identifier)*, or
nothing. -/
def parse_param_list (ts : List Token) (n : Nat) : M Unit := do
  let t ← curTok ts
  if t.1 = "TYPE_KEYWORD" then do
    _ ← matchTok ts "TYPE_KEYWORD" none
    _ ← matchTok ts "ID" none
    param_loop ts n
  else pure ()

/-- `parse_meta`: '#import' 'stadium'. -/
def parse_meta (ts : List Token) : M Unit := do
  _ ← matchTok ts "META_KEYWORD" (some "#import")
  let t ← curTok ts
  if t.2 = "stadium" then do
    _ ← matchTok ts "META_KEYWORD" (some "stadium")
    pure ()
  else errHere ts "Expected 'stadium' after #import"
  logM "→ Meta statement parsed (#import stadium)"

/-- The function-name step of `parse_function` (`cr7_gui.py`): the name may
be an `ID` or a `FUNCTION_KEYWORD`, consumed by a bare `self.pos += 1`. -/
def funcName (ts : List Token) : M Unit := do
  let t ← curTok ts
  if t.1 = "ID" ∨ t.1 = "FUNCTION_KEYWORD" then advance
  else errHere ts "Expected function name after 'play'"

/-- `parse_function` (`cr7_gui.py`): the heading keyword is matched with
expected value `"play"`, then the name, parameter list and block. -/
def parse_function (ts : List Token) (n : Nat) : M Unit := do
  _ ← matchTok ts "FUNCTION_KEYWORD" (some "play")
  funcName ts
  _ ← matchTok ts "LPAREN" none
  parse_param_list ts n
  _ ← matchTok ts "RPAREN" none
  _ ← matchTok ts "LBRACE" none
  parse_statement_list ts n
  _ ← matchTok ts "RBRACE" none
  logM "→ Function parsed"

/-- The top-level `while` loop of `parse_program`. -/
def pp_loop (ts : List Token) : Nat → M Unit
  | 0 => mfuel
  | n + 1 => do
    let t ← curTok ts
    if t.1 = "EOF" then pure ()
    else if t.1 = "META_KEYWORD" then do
      parse_meta ts
      pp_loop ts n
    else if t.1 = "FUNCTION_KEYWORD" then do
      parse_function ts n
      pp_loop ts n
    else errHere ts ("Unexpected statement start: " ++ t.2)

/-- `parse_program`: header line, the top-level loop, success line. -/
def parse_program (ts : List Token) (n : Nat) : M Unit := do
  logM "[Parser] Starting CR7 Script Parsing...\n"
  pp_loop ts n
  logM "\n[Parser] Parsing completed successfully ✅"

/-! ## Invariants of the recognizer

`PosMono`: a grammar procedure never moves the cursor backward.
`Frames`: a procedure's verdict and cursor depend only on the token
sequence and the entry cursor, and it only appends to the output log.
`Safe`: provided the token sequence has a successor position after every
non-`EOF` token (true of every scanner output, which ends in the `EOF`
token), no procedure ever reads out of bounds, and the cursor stays
strictly below the length of the token sequence. -/

def PosMono {α : Type} (x : M α) : Prop := ∀ s, s.pos ≤ (x s).2.pos

def Frames {α : Type} (x : M α) : Prop :=
  ∀ s, x s = ((x ⟨s.pos, []⟩).1,
    ⟨(x ⟨s.pos, []⟩).2.pos, s.log ++ (x ⟨s.pos, []⟩).2.log⟩)

def NoEofBeforeLast (ts : List Token) : Prop :=
  ∀ i (h : i < ts.length), (ts.get ⟨i, h⟩).1 ≠ "EOF" → i + 1 < ts.length

def Safe {α : Type} (ts : List Token) (x : M α) : Prop :=
  ∀ s, s.pos < ts.length →
    (x s).1 ≠ Except.error PErr.oob ∧ (x s).2.pos < ts.length

def Good {α : Type} (ts : List Token) (x : M α) : Prop :=
  PosMono x ∧ Frames x ∧ (NoEofBeforeLast ts → Safe ts x)

theorem posMono_bind {α β : Type} {x : M α} {f : α → M β}
    (hx : PosMono x) (hf : ∀ a, PosMono (f a)) : PosMono (x >>= f) := by
  intro s
  rw [bind_run]
  rcases hxs : x s with ⟨r, s1⟩
  have h1 : s.pos ≤ s1.pos := by
    have := hx s
    rw [hxs] at this
    exact this
  cases r with
  | ok a => exact Nat.le_trans h1 (hf a s1)
  | error e => exact h1

theorem frames_bind {α β : Type} {x : M α} {f : α → M β}
    (hx : Frames x) (hf : ∀ a, Frames (f a)) : Frames (x >>= f) := by
  intro s
  rw [bind_run, bind_run]
  rw [hx s, hx ⟨s.pos, []⟩]
  simp only []
  rcases hr0 : (x ⟨s.pos, []⟩).1 with e | a
  · simp only [List.nil_append]
  · simp only [List.nil_append]
    rw [hf a ⟨(x ⟨s.pos, []⟩).2.pos, s.log ++ (x ⟨s.pos, []⟩).2.log⟩,
      hf a ⟨(x ⟨s.pos, []⟩).2.pos, (x ⟨s.pos, []⟩).2.log⟩]
    simp [List.append_assoc]

theorem safe_bind {α β : Type} {ts : List Token} {x : M α} {f : α → M β}
    (hx : Safe ts x) (hf : ∀ a, Safe ts (f a)) : Safe ts (x >>= f) := by
  intro s hs
  rw [bind_run]
  rcases hxs : x s with ⟨r, s1⟩
  have h1 := hx s hs
  rw [hxs] at h1
  cases r with
  | ok a => simpa using hf a s1 h1.2
  | error e => simpa using h1

theorem good_bind {α β : Type} {ts : List Token} {x : M α} {f : α → M β}
    (hx : Good ts x) (hf : ∀ a, Good ts (f a)) : Good ts (x >>= f) :=
  ⟨posMono_bind hx.1 (fun a => (hf a).1),
   frames_bind hx.2.1 (fun a => (hf a).2.1),
   fun hw => safe_bind (hx.2.2 hw) (fun a => (hf a).2.2 hw)⟩

theorem good_ite {α : Type} {ts : List Token} {c : Prop} [Decidable c]
    {x y : M α} (hx : Good ts x) (hy : Good ts y) :
    Good ts (if c then x else y) := by
  by_cases h : c
  · rw [if_pos h]; exact hx
  · rw [if_neg h]; exact hy

theorem good_pure {α : Type} {ts : List Token} (a : α) : Good ts (pure a : M α) :=
  ⟨fun _ => Nat.le_refl _, fun s => by simp [pure_run],
   fun _ s hs => ⟨by simp [pure_run], hs⟩⟩

theorem good_mfuel {α : Type} {ts : List Token} : Good ts (mfuel : M α) :=
  ⟨fun _ => Nat.le_refl _, fun s => by simp [mfuel],
   fun _ s hs => ⟨by simp [mfuel], hs⟩⟩

theorem good_logM {ts : List Token} (msg : String) : Good ts (logM msg) :=
  ⟨fun _ => Nat.le_refl _, fun s => by simp [logM],
   fun _ s hs => ⟨by simp [logM], hs⟩⟩

theorem good_curTok {ts : List Token} : Good ts (curTok ts) := by
  refine ⟨fun s => ?_, fun s => ?_, fun hw s hs => ?_⟩
  · unfold curTok
    rcases ts.get? s.pos with _ | t <;> exact Nat.le_refl _
  · unfold curTok
    rcases ts.get? s.pos with _ | t <;> simp
  · unfold curTok
    rcases h : ts.get? s.pos with _ | t
    · exact absurd (List.get?_eq_none.mp h) (by omega)
    · exact ⟨by simp, hs⟩

theorem good_lookTok {ts : List Token} : Good ts (lookTok ts) :=
  ⟨fun _ => Nat.le_refl _, fun s => by simp [lookTok],
   fun _ s hs => ⟨by simp [lookTok], hs⟩⟩

theorem good_errKV {α : Type} {ts : List Token} (msg kind value : String) :
    Good ts (errKV msg kind value : M α) :=
  ⟨fun _ => Nat.le_refl _, fun s => by simp [errKV],
   fun _ s hs => ⟨by simp [errKV], hs⟩⟩

theorem good_errHere {α : Type} {ts : List Token} (msg : String) :
    Good ts (errHere ts msg : M α) :=
  good_bind good_curTok (fun t => good_errKV msg t.1 t.2)

/-! Run characterizations for `matchTok`. -/

theorem matchTok_oob {ts : List Token} {k : String} {v? : Option String}
    {s : PState} (h : ts.get? s.pos = none) :
    matchTok ts k v? s = (.error .oob, s) := by
  unfold matchTok
  rw [bind_run]
  unfold curTok
  rw [h]

theorem matchTok_hit {ts : List Token} {k : String} {v? : Option String}
    {s : PState} {t : Token} (h : ts.get? s.pos = some t)
    (hc : t.1 = k ∧ (v? = none ∨ v? = some t.2)) :
    matchTok ts k v? s = (.ok t.2, ⟨s.pos + 1, s.log⟩) := by
  unfold matchTok
  rw [bind_run]
  unfold curTok
  rw [h]
  simp only [if_pos hc, bind_run, advance, pure_run]

theorem matchTok_miss {ts : List Token} {k : String} {v? : Option String}
    {s : PState} {t : Token} (h : ts.get? s.pos = some t)
    (hc : ¬ (t.1 = k ∧ (v? = none ∨ v? = some t.2))) :
    matchTok ts k v? s =
      (.error (.diag ⟨expMsg k v?, t.1, t.2⟩),
        ⟨s.pos, s.log ++ [errLine (expMsg k v?) t.1 t.2]⟩) := by
  unfold matchTok
  rw [bind_run]
  unfold curTok
  rw [h]
  simp only [if_neg hc, errKV]

theorem good_matchTok {ts : List Token} (k : String) (v? : Option String)
    (hk : k ≠ "EOF") : Good ts (matchTok ts k v?) := by
  refine ⟨fun s => ?_, fun s => ?_, fun hw s hs => ?_⟩
  · rcases h : ts.get? s.pos with _ | t
    · rw [matchTok_oob h]
    · by_cases hc : t.1 = k ∧ (v? = none ∨ v? = some t.2)
      · rw [matchTok_hit h hc]
        exact Nat.le_succ _
      · rw [matchTok_miss h hc]
  · have h0 : ts.get? (⟨s.pos, ([] : List String)⟩ : PState).pos = ts.get? s.pos := rfl
    rcases h : ts.get? s.pos with _ | t
    · rw [matchTok_oob h, matchTok_oob (h0.trans h)]
      simp
    · by_cases hc : t.1 = k ∧ (v? = none ∨ v? = some t.2)
      · rw [matchTok_hit h hc, matchTok_hit (h0.trans h) hc]
        simp
      · rw [matchTok_miss h hc, matchTok_miss (h0.trans h) hc]
        simp
  · rcases h : ts.get? s.pos with _ | t
    · exact absurd (List.get?_eq_none.mp h) (by omega)
    · by_cases hc : t.1 = k ∧ (v? = none ∨ v? = some t.2)
      · rw [matchTok_hit h hc]
        refine ⟨by simp, ?_⟩
        have ht : t = ts.get ⟨s.pos, hs⟩ := by
          have := List.get?_eq_get hs
          rw [h] at this
          exact (Option.some.injEq _ _ ▸ this)
        exact hw s.pos hs (by rw [← ht, hc.1]; exact hk)
      · rw [matchTok_miss h hc]
        exact ⟨by simp, hs⟩

theorem good_funcName {ts : List Token} : Good ts (funcName ts) := by
  refine ⟨fun s => ?_, fun s => ?_, fun hw s hs => ?_⟩
  · unfold funcName
    rw [bind_run]
    unfold curTok
    rcases h : ts.get? s.pos with _ | t
    · exact Nat.le_refl _
    · simp only []
      by_cases hc : t.1 = "ID" ∨ t.1 = "FUNCTION_KEYWORD"
      · rw [if_pos hc]
        exact Nat.le_succ _
      · rw [if_neg hc]
        exact (good_errHere _).1 s
  · unfold funcName
    rw [bind_run, bind_run]
    unfold curTok
    rcases h : ts.get? s.pos with _ | t
    · simp
    · simp only []
      by_cases hc : t.1 = "ID" ∨ t.1 = "FUNCTION_KEYWORD"
      · rw [if_pos hc]
        simp [advance]
      · rw [if_neg hc]
        exact (good_errHere _).2.1 s
  · unfold funcName
    rw [bind_run]
    unfold curTok
    rcases h : ts.get? s.pos with _ | t
    · exact absurd (List.get?_eq_none.mp h) (by omega)
    · simp only []
      by_cases hc : t.1 = "ID" ∨ t.1 = "FUNCTION_KEYWORD"
      · rw [if_pos hc]
        refine ⟨by simp [advance], ?_⟩
        have ht : t = ts.get ⟨s.pos, hs⟩ := by
          have := List.get?_eq_get hs
          rw [h] at this
          exact (Option.some.injEq _ _ ▸ this)
        refine hw s.pos hs ?_
        rw [← ht]
        rcases hc with hc | hc <;> rw [hc] <;> decide
      · rw [if_neg hc]
        exact (good_errHere _).2.2 hw s hs

theorem good_ite_h {α : Type} {ts : List Token} {c : Prop} [Decidable c]
    {x y : M α} (hx : c → Good ts x) (hy : ¬ c → Good ts y) :
    Good ts (if c then x else y) := by
  by_cases h : c
  · rw [if_pos h]; exact hx h
  · rw [if_neg h]; exact hy h

theorem good_expr_block (ts : List Token) (n : Nat) :
    Good ts (parse_expr ts n) ∧ Good ts (expr_loop ts n) ∧
    Good ts (parse_term ts n) ∧ Good ts (term_loop ts n) ∧
    Good ts (parse_factor ts n) ∧ Good ts (args_loop ts n) := by
  induction n with
  | zero => exact ⟨good_mfuel, good_mfuel, good_mfuel, good_mfuel, good_mfuel, good_mfuel⟩
  | succ n ih =>
    obtain ⟨ihe, ihel, iht, ihtl, ihf, ihal⟩ := ih
    refine ⟨?_, ?_, ?_, ?_, ?_, ?_⟩
    · simp only [parse_expr]
      exact good_bind iht (fun _ => ihel)
    · simp only [expr_loop]
      refine good_bind good_curTok (fun t => ?_)
      refine good_ite ?_ (good_pure ())
      refine good_bind (good_matchTok "OP" none (by decide)) (fun _ => ?_)
      exact good_bind iht (fun _ => ihel)
    · simp only [parse_term]
      exact good_bind ihf (fun _ => ihtl)
    · simp only [term_loop]
      refine good_bind good_curTok (fun t => ?_)
      refine good_ite ?_ (good_pure ())
      refine good_bind (good_matchTok "OP" none (by decide)) (fun _ => ?_)
      exact good_bind ihf (fun _ => ihtl)
    · simp only [parse_factor]
      refine good_bind good_curTok (fun t => ?_)
      refine good_ite_h ?_ (fun _ => ?_)
      · intro hc
        have hk : t.1 ≠ "EOF" := by
          rcases hc with h | h <;> rw [h] <;> decide
        refine good_bind good_lookTok (fun la => ?_)
        refine good_ite ?_ ?_
        · refine good_bind (good_matchTok t.1 none hk) (fun ident => ?_)
          refine good_bind (good_matchTok "LPAREN" none (by decide)) (fun _ => ?_)
          refine good_bind good_curTok (fun u => ?_)
          refine good_ite ?_ ?_
          · refine good_bind ihe (fun _ => ?_)
            refine good_bind ihal (fun _ => ?_)
            refine good_bind (good_matchTok "RPAREN" none (by decide)) (fun _ => ?_)
            exact good_logM _
          · refine good_bind (good_pure ()) (fun _ => ?_)
            refine good_bind (good_matchTok "RPAREN" none (by decide)) (fun _ => ?_)
            exact good_logM _
        · exact good_bind (good_matchTok t.1 none hk) (fun _ => good_pure ())
      · refine good_ite_h ?_ (fun _ => ?_)
        · intro hc
          have hk : t.1 ≠ "EOF" := by
            rcases hc with h | h <;> rw [h] <;> decide
          exact good_bind (good_matchTok t.1 none hk) (fun _ => good_pure ())
        · refine good_ite ?_ (good_errHere _)
          refine good_bind (good_matchTok "LPAREN" none (by decide)) (fun _ => ?_)
          refine good_bind ihe (fun _ => ?_)
          exact good_bind (good_matchTok "RPAREN" none (by decide)) (fun _ => good_pure ())
    · simp only [args_loop]
      refine good_bind good_curTok (fun t => ?_)
      refine good_ite ?_ (good_pure ())
      refine good_bind (good_matchTok "COMMA" none (by decide)) (fun _ => ?_)
      exact good_bind ihe (fun _ => ihal)

theorem good_parse_condition (ts : List Token) (n : Nat) :
    Good ts (parse_condition ts n) := by
  unfold parse_condition
  refine good_bind (good_expr_block ts n).1 (fun _ => ?_)
  refine good_bind good_curTok (fun t => ?_)
  refine good_ite ?_ (good_errHere _)
  refine good_bind (good_matchTok "OP" none (by decide)) (fun _ => ?_)
  exact (good_expr_block ts n).1

theorem good_parse_declaration (ts : List Token) (n : Nat) :
    Good ts (parse_declaration ts n) := by
  unfold parse_declaration
  refine good_bind (good_matchTok "TYPE_KEYWORD" none (by decide)) (fun _ => ?_)
  refine good_bind (good_matchTok "ID" none (by decide)) (fun _ => ?_)
  refine good_bind good_curTok (fun t => ?_)
  refine good_ite ?_ ?_
  · refine good_bind (good_matchTok "ASSIGN" none (by decide)) (fun _ => ?_)
    refine good_bind (good_expr_block ts n).1 (fun _ => ?_)
    exact good_bind (good_matchTok "END" none (by decide)) (fun _ => good_logM _)
  · refine good_bind (good_pure ()) (fun _ => ?_)
    exact good_bind (good_matchTok "END" none (by decide)) (fun _ => good_logM _)

theorem good_parse_assignment (ts : List Token) (n : Nat) :
    Good ts (parse_assignment ts n) := by
  unfold parse_assignment
  refine good_bind (good_matchTok "ID" none (by decide)) (fun _ => ?_)
  refine good_bind (good_matchTok "ASSIGN" none (by decide)) (fun _ => ?_)
  refine good_bind (good_expr_block ts n).1 (fun _ => ?_)
  exact good_bind (good_matchTok "END" none (by decide)) (fun _ => good_logM _)

theorem good_parse_declaration_in_for (ts : List Token) (n : Nat) :
    Good ts (parse_declaration_in_for ts n) := by
  unfold parse_declaration_in_for
  refine good_bind (good_matchTok "TYPE_KEYWORD" none (by decide)) (fun _ => ?_)
  refine good_bind (good_matchTok "ID" none (by decide)) (fun _ => ?_)
  refine good_bind good_curTok (fun t => ?_)
  refine good_ite ?_ ?_
  · refine good_bind (good_matchTok "ASSIGN" none (by decide)) (fun _ => ?_)
    exact good_bind (good_expr_block ts n).1 (fun _ => good_logM _)
  · exact good_bind (good_pure ()) (fun _ => good_logM _)

theorem good_parse_assignment_in_for (ts : List Token) (n : Nat) :
    Good ts (parse_assignment_in_for ts n) := by
  unfold parse_assignment_in_for
  refine good_bind (good_matchTok "ID" none (by decide)) (fun _ => ?_)
  refine good_bind good_curTok (fun t => ?_)
  refine good_ite ?_ ?_
  · refine good_bind (good_matchTok "ASSIGN" none (by decide)) (fun _ => ?_)
    exact good_bind (good_expr_block ts n).1 (fun _ => good_logM _)
  · refine good_ite ?_ (good_errHere _)
    exact good_bind (good_matchTok "OP" none (by decide)) (fun _ => good_logM _)

theorem good_parse_output (ts : List Token) (n : Nat) :
    Good ts (parse_output ts n) := by
  unfold parse_output
  refine good_bind (good_matchTok "OUTPUT_KEYWORD" none (by decide)) (fun _ => ?_)
  refine good_bind (good_expr_block ts n).1 (fun _ => ?_)
  exact good_bind (good_matchTok "END" none (by decide)) (fun _ => good_logM _)

theorem good_parse_input (ts : List Token) (n : Nat) :
    Good ts (parse_input ts n) := by
  unfold parse_input
  refine good_bind (good_matchTok "INPUT_KEYWORD" none (by decide)) (fun _ => ?_)
  refine good_bind (good_matchTok "ID" none (by decide)) (fun _ => ?_)
  exact good_bind (good_matchTok "END" none (by decide)) (fun _ => good_logM _)

theorem good_parse_return (ts : List Token) (n : Nat) :
    Good ts (parse_return ts n) := by
  unfold parse_return
  refine good_bind (good_matchTok "FUNCTION_KEYWORD" (some "whistle") (by decide)) (fun _ => ?_)
  refine good_bind (good_expr_block ts n).1 (fun _ => ?_)
  exact good_bind (good_matchTok "END" none (by decide)) (fun _ => good_logM _)

set_option maxHeartbeats 4000000 in
theorem good_stmt_block (ts : List Token) (n : Nat) :
    Good ts (parse_statement_list ts n) ∧ Good ts (parse_statement ts n) ∧
    Good ts (parse_if ts n) ∧ Good ts (parse_while ts n) ∧
    Good ts (parse_for ts n) := by
  induction n with
  | zero => exact ⟨good_mfuel, good_mfuel, good_mfuel, good_mfuel, good_mfuel⟩
  | succ n ih =>
    obtain ⟨ihsl, ihst, ihif, ihwh, ihfor⟩ := ih
    refine ⟨?_, ?_, ?_, ?_, ?_⟩ <;>
      simp only [parse_statement_list, parse_statement, parse_if, parse_while,
        parse_for] <;>
      repeat' first
        | exact ihsl
        | exact ihst
        | exact ihif
        | exact ihwh
        | exact ihfor
        | exact good_parse_condition ts n
        | exact good_parse_declaration ts n
        | exact good_parse_assignment ts n
        | exact good_parse_declaration_in_for ts n
        | exact good_parse_assignment_in_for ts n
        | exact good_parse_output ts n
        | exact good_parse_input ts n
        | exact good_parse_return ts n
        | exact good_curTok
        | exact good_lookTok
        | exact good_pure _
        | exact good_logM _
        | exact good_errKV _ _ _
        | exact good_errHere _
        | exact good_matchTok _ _ (by decide)
        | apply good_ite
        | apply good_bind
        | intro _

theorem good_param_loop (ts : List Token) (n : Nat) : Good ts (param_loop ts n) := by
  induction n with
  | zero => exact good_mfuel
  | succ n ih =>
    simp only [param_loop]
    refine good_bind good_curTok (fun t => ?_)
    refine good_ite ?_ (good_pure ())
    refine good_bind (good_matchTok "COMMA" none (by decide)) (fun _ => ?_)
    refine good_bind (good_matchTok "TYPE_KEYWORD" none (by decide)) (fun _ => ?_)
    exact good_bind (good_matchTok "ID" none (by decide)) (fun _ => ih)

theorem good_parse_param_list (ts : List Token) (n : Nat) :
    Good ts (parse_param_list ts n) := by
  unfold parse_param_list
  refine good_bind good_curTok (fun t => ?_)
  refine good_ite ?_ (good_pure ())
  refine good_bind (good_matchTok "TYPE_KEYWORD" none (by decide)) (fun _ => ?_)
  exact good_bind (good_matchTok "ID" none (by decide)) (fun _ => good_param_loop ts n)

theorem good_parse_meta (ts : List Token) : Good ts (parse_meta ts) := by
  unfold parse_meta
  refine good_bind (good_matchTok "META_KEYWORD" (some "#import") (by decide)) (fun _ => ?_)
  refine good_bind good_curTok (fun t => ?_)
  refine good_ite ?_ ?_
  · refine good_bind (good_matchTok "META_KEYWORD" (some "stadium") (by decide)) (fun _ => ?_)
    exact good_bind (good_pure ()) (fun _ => good_logM _)
  · exact good_bind (good_errHere _) (fun _ => good_logM _)

theorem good_parse_function (ts : List Token) (n : Nat) :
    Good ts (parse_function ts n) := by
  unfold parse_function
  refine good_bind (good_matchTok "FUNCTION_KEYWORD" (some "play") (by decide)) (fun _ => ?_)
  refine good_bind good_funcName (fun _ => ?_)
  refine good_bind (good_matchTok "LPAREN" none (by decide)) (fun _ => ?_)
  refine good_bind (good_parse_param_list ts n) (fun _ => ?_)
  refine good_bind (good_matchTok "RPAREN" none (by decide)) (fun _ => ?_)
  refine good_bind (good_matchTok "LBRACE" none (by decide)) (fun _ => ?_)
  refine good_bind (good_stmt_block ts n).1 (fun _ => ?_)
  exact good_bind (good_matchTok "RBRACE" none (by decide)) (fun _ => good_logM _)

theorem good_pp_loop (ts : List Token) (n : Nat) : Good ts (pp_loop ts n) := by
  induction n with
  | zero => exact good_mfuel
  | succ n ih =>
    simp only [pp_loop]
    refine good_bind good_curTok (fun t => ?_)
    refine good_ite (good_pure ()) ?_
    refine good_ite ?_ ?_
    · exact good_bind (good_parse_meta ts) (fun _ => ih)
    · refine good_ite ?_ (good_errHere _)
      exact good_bind (good_parse_function ts n) (fun _ => ih)

theorem good_parse_program (ts : List Token) (n : Nat) :
    Good ts (parse_program ts n) := by
  unfold parse_program
  refine good_bind (good_logM _) (fun _ => ?_)
  exact good_bind (good_pp_loop ts n) (fun _ => good_logM _)

/-! ## Shape of scanner output -/

theorem tokenize_shape (code : List Char) (ts : List Token)
    (h : tokenize code = .ok ts) : ∃ l, ts = l ++ [("EOF", "")] := by
  unfold tokenize at h
  rcases hr : tokensFromRaw (rawScan code) with e | l <;> rw [hr] at h
  · simp [Except.map] at h
  · refine ⟨l, ?_⟩
    simpa [Except.map] using h.symm

theorem noEofBeforeLast_append (l : List Token) :
    NoEofBeforeLast (l ++ [("EOF", "")]) := by
  intro i h hne
  by_contra hcon
  push_neg at hcon
  have hlen : (l ++ [("EOF", "")]).length = l.length + 1 := by simp
  have hi : i = l.length := by omega
  subst hi
  have hget : (l ++ [("EOF", "")]).get ⟨l.length, h⟩ = ("EOF", "") := by
    rw [List.get_eq_getElem, List.getElem_append_right (Nat.le_refl _)]
    simp
  rw [hget] at hne
  exact hne rfl

/-! ## The bare-`bench` statement (claim C2)

`parse_statement` on a bare `bench` token returns without consuming it and
without an error; but `parse_statement_list`'s `while` loop then re-examines
the very same token, so the loop never exits: the run exhausts every amount
of fuel (the Python recognizer loops forever). -/

/-- `tokenize "play main() \x7b bench \x7d"`. -/
def benchToks : List Token :=
  [("FUNCTION_KEYWORD", "play"), ("ID", "main"), ("LPAREN", "("),
   ("RPAREN", ")"), ("LBRACE", "\x7b"), ("CONTROL_KEYWORD", "bench"),
   ("RBRACE", "\x7d"), ("EOF", "")]

theorem bench_statement_step (k : Nat) (l : List String) :
    parse_statement benchToks (k + 1) ⟨5, l⟩ = (.ok (), ⟨5, l⟩) := rfl

theorem bench_stmt_list_stuck :
    ∀ m (l : List String),
      parse_statement_list benchToks m ⟨5, l⟩ = (.error .fuel, ⟨5, l⟩) := by
  intro m
  induction m with
  | zero => intro l; rfl
  | succ m ih =>
    intro l
    have hstep : parse_statement_list benchToks (m + 1) ⟨5, l⟩ =
        (parse_statement benchToks m >>= fun _ =>
          parse_statement_list benchToks m) ⟨5, l⟩ := rfl
    rw [hstep, bind_run]
    cases m with
    | zero => rfl
    | succ k =>
      rw [bench_statement_step k l]
      exact ih l

theorem bench_function_stuck (m : Nat) (l : List String) :
    parse_function benchToks m ⟨0, l⟩ = (.error .fuel, ⟨5, l⟩) := by
  have hpre : parse_function benchToks m ⟨0, l⟩ =
      (parse_statement_list benchToks m >>= fun _ =>
        matchTok benchToks "RBRACE" none >>= fun _ =>
          logM "→ Function parsed") ⟨5, l⟩ := rfl
  rw [hpre, bind_run, bench_stmt_list_stuck m l]

theorem bench_program_allfuel (n : Nat) (l : List String) :
    (parse_program benchToks n ⟨0, l⟩).1 = Except.error PErr.fuel := by
  cases n with
  | zero => rfl
  | succ m =>
    have hpre : parse_program benchToks (m + 1) ⟨0, l⟩ =
        ((parse_function benchToks m >>= fun _ => pp_loop benchToks m) >>= fun _ =>
          logM "\n[Parser] Parsing completed successfully ✅")
          ⟨0, l ++ ["[Parser] Starting CR7 Script Parsing...\n"]⟩ := rfl
    rw [hpre, bind_run, bind_run, bench_function_stuck]

/-! ## Tiling: the raw matches cover the source text exactly (claim C5) -/

theorem numScan_concat (s : List Char) : (numScan s).1 ++ (numScan s).2 = s := by
  unfold numScan
  split
  · rename_i hcond
    simp only [Bool.and_eq_true, decide_eq_true_eq] at hcond
    rcases hr : s.dropWhile isDigitC with _ | ⟨d, r2⟩
    · rw [hr] at hcond; simp at hcond
    · rw [hr] at hcond
      have hd : d = '.' := by simpa using hcond.1
      subst hd
      simp only [hr, List.tail_cons]
      calc (s.takeWhile isDigitC ++ '.' :: r2.takeWhile isDigitC) ++ r2.dropWhile isDigitC
          = s.takeWhile isDigitC ++
            '.' :: (r2.takeWhile isDigitC ++ r2.dropWhile isDigitC) := by
            simp [List.append_assoc]
        _ = s.takeWhile isDigitC ++ '.' :: r2 := by
            rw [List.takeWhile_append_dropWhile]
        _ = s.takeWhile isDigitC ++ s.dropWhile isDigitC := by rw [hr]
        _ = s := List.takeWhile_append_dropWhile _ _
  · exact List.takeWhile_append_dropWhile _ _

theorem strScan_concat (rest lex r : List Char) (h : strScan rest = some (lex, r)) :
    lex ++ r = '"' :: rest := by
  unfold strScan at h
  split at h
  · rename_i r2 heq
    obtain ⟨hlex, hr⟩ : '"' :: rest.takeWhile (fun c => !(c = '"')) ++ ['"'] = lex ∧
        r2 = r := by simpa using h
    subst hr
    rw [← hlex]
    simp only [List.cons_append, List.append_assoc, List.singleton_append,
      List.nil_append]
    rw [← heq, List.takeWhile_append_dropWhile]
  · simp at h

theorem nextMatch_concat (c : Char) (rest : List Char) :
    (nextMatch c rest).2.1 ++ (nextMatch c rest).2.2 = c :: rest := by
  unfold nextMatch
  by_cases h1 : (c = '#' && headIsWordC rest) = true
  · rw [if_pos h1]
    simp only [List.cons_append]
    rw [List.takeWhile_append_dropWhile]
  · rw [if_neg h1]
    by_cases h2 : (c = '/' && rest.head? = some '/') = true
    · rw [if_pos h2]
      exact List.takeWhile_append_dropWhile _ _
    · rw [if_neg h2]
      by_cases h3 : isDigitC c = true
      · rw [if_pos h3]
        simp only [List.cons_append]
        rw [numScan_concat]
      · rw [if_neg h3]
        by_cases h4 : c = '='
        · rw [if_pos h4]; rfl
        · rw [if_neg h4]
          by_cases h5 : c = ','
          · rw [if_pos h5]; rfl
          · rw [if_neg h5]
            by_cases h6 : c = ';'
            · rw [if_pos h6]; rfl
            · rw [if_neg h6]
              by_cases h7 : c = '('
              · rw [if_pos h7]; rfl
              · rw [if_neg h7]
                by_cases h8 : c = ')'
                · rw [if_pos h8]; rfl
                · rw [if_neg h8]
                  by_cases h9 : c = '{'
                  · rw [if_pos h9]; rfl
                  · rw [if_neg h9]
                    by_cases h10 : c = '}'
                    · rw [if_pos h10]; rfl
                    · rw [if_neg h10]
                      by_cases h11 : c = '"'
                      · rw [if_pos h11]
                        rcases hs : strScan rest with _ | ⟨lex, r⟩
                        · simp [hs]
                        · simp only [hs, Option.elim]
                          rw [strScan_concat rest lex r hs, h11]
                      · rw [if_neg h11]
                        by_cases h12 : (isAlphaC c || c = '_') = true
                        · rw [if_pos h12]
                          simp only [List.cons_append]
                          rw [List.takeWhile_append_dropWhile]
                        · rw [if_neg h12]
                          by_cases h13 : isOpC c = true
                          · rw [if_pos h13]
                            exact List.takeWhile_append_dropWhile _ _
                          · rw [if_neg h13]
                            by_cases h14 : c = '\n'
                            · rw [if_pos h14]; rfl
                            · rw [if_neg h14]
                              by_cases h15 : isSkipC c = true
                              · rw [if_pos h15]
                                exact List.takeWhile_append_dropWhile _ _
                              · rw [if_neg h15]; rfl

theorem rawScan_concat_aux :
    ∀ (n : Nat) (code : List Char), code.length ≤ n →
      ((rawScan code).map (fun m => m.2)).flatten = code := by
  intro n
  induction n with
  | zero =>
    intro code h
    have : code = [] := by
      cases code with
      | nil => rfl
      | cons c r => simp at h
    subst this
    rfl
  | succ n ih =>
    intro code h
    cases code with
    | nil => rfl
    | cons c rest =>
      rw [rawScan_cons]
      simp only [List.map_cons, List.flatten_cons]
      rw [ih (nextMatch c rest).2.2
        (Nat.le_trans (nextMatch_rest_le c rest) (by simpa using h))]
      exact nextMatch_concat c rest

theorem rawScan_concat (code : List Char) :
    ((rawScan code).map (fun m => m.2)).flatten = code :=
  rawScan_concat_aux code.length code (Nat.le_refl _)

/-- A raw-match kind the `tokenize` loop discards without emitting a token. -/
def discardKind (k : String) : Bool := k = "COMMENT" || k = "SKIP" || k = "NEWLINE"

theorem tokensFromRaw_lexemes :
    ∀ (raw : List (String × List Char)) (l : List Token),
      tokensFromRaw raw = .ok l →
      l.map (fun t => t.2.data) =
        (raw.filter (fun m => !(discardKind m.1))).map (fun m => m.2) := by
  intro raw
  induction raw with
  | nil =>
    intro l h
    simp only [tokensFromRaw] at h
    obtain rfl : ([] : List Token) = l := by simpa using h
    rfl
  | cons m rs ih =>
    intro l h
    obtain ⟨k, lex⟩ := m
    simp only [tokensFromRaw] at h
    by_cases hk1 : k = "COMMENT"
    · rw [if_pos hk1] at h
      rw [List.filter_cons_of_neg (by simp [discardKind, hk1])]
      exact ih l h
    · rw [if_neg hk1] at h
      by_cases hk2 : k = "META"
      · rw [if_pos hk2] at h
        rcases hr : tokensFromRaw rs with e | l' <;> rw [hr] at h
        · simp [Except.map] at h
        · simp only [Except.map, Except.map_ok] at h
          obtain rfl : ("META_KEYWORD", String.mk lex) :: l' = l := by simpa using h
          rw [List.filter_cons_of_pos (by simp [discardKind, hk2])]
          simp only [List.map_cons]
          rw [ih l' hr]
      · rw [if_neg hk2] at h
        by_cases hk3 : k = "ID"
        · rw [if_pos hk3] at h
          rcases hr : tokensFromRaw rs with e | l' <;> rw [hr] at h
          · simp [Except.map] at h
          · simp only [Except.map, Except.map_ok] at h
            obtain rfl : (classifyId (String.mk lex), String.mk lex) :: l' = l := by
              simpa using h
            rw [List.filter_cons_of_pos (by simp [discardKind, hk3])]
            simp only [List.map_cons]
            rw [ih l' hr]
        · rw [if_neg hk3] at h
          by_cases hk4 : (k = "SKIP" || k = "NEWLINE") = true
          · rw [if_pos hk4] at h
            rw [List.filter_cons_of_neg ?hd]
            case hd =>
              simp only [Bool.or_eq_true, decide_eq_true_eq] at hk4
              rcases hk4 with h' | h' <;> simp [discardKind, h']
            exact ih l h
          · rw [if_neg hk4] at h
            by_cases hk5 : k = "MISMATCH"
            · rw [if_pos hk5] at h
              simp at h
            · rw [if_neg hk5] at h
              rcases hr : tokensFromRaw rs with e | l' <;> rw [hr] at h
              · simp [Except.map] at h
              · simp only [Except.map, Except.map_ok] at h
                obtain rfl : (k, String.mk lex) :: l' = l := by simpa using h
                rw [List.filter_cons_of_pos ?hp]
                case hp =>
                  simp only [Bool.or_eq_true, decide_eq_true_eq] at hk4
                  push_neg at hk4
                  simp [discardKind, hk1, hk4.1, hk4.2]
                simp only [List.map_cons]
                rw [ih l' hr]

/-- Concatenation of all token lexemes, in order (the end-of-input token
contributes the empty string). -/
def lexConcat (l : List Token) : List Char := (l.map (fun t => t.2.data)).flatten

/-- The source text with exactly the scanner-discarded match segments
(comments, whitespace runs, newlines) removed. -/
def keptText (code : List Char) : List Char :=
  (((rawScan code).filter (fun m => !(discardKind m.1))).map (fun m => m.2)).flatten

/-- Fuel-indexed worker for `stripWsComments` (fuel equal to the input
length always suffices: every step consumes at least one character). -/
def stripWsCommentsF : Nat → List Char → List Char
  | _, [] => []
  | n + 1, '/' :: '/' :: rest =>
    stripWsCommentsF n (rest.dropWhile (fun c => !(c = '\n')))
  | n + 1, c :: rest =>
    if c = ' ' ∨ c = '\t' ∨ c = '\n' then stripWsCommentsF n rest
    else c :: stripWsCommentsF n rest
  | 0, _ :: _ => []

/-- Modelled from the claim's words (claim C5, for comparison with the
code-derived `keptText`): the original text with all whitespace characters,
newlines, and `//`-to-end-of-line comments removed, irrespective of token
structure. -/
def stripWsComments (s : List Char) : List Char := stripWsCommentsF s.length s

/-! ## Whitespace/comment-only texts (claim C7) -/

/-- A text consisting only of whitespace characters, newlines, and line
comments (a line comment runs from `//` to the next newline or the end of
the text). -/
inductive WsOnly : List Char → Prop
  | nil : WsOnly []
  | ws {c : Char} {s : List Char} : c = ' ' ∨ c = '\t' → WsOnly s →
      WsOnly (c :: s)
  | nl {s : List Char} : WsOnly s → WsOnly ('\n' :: s)
  | com {cs s : List Char} : (∀ c ∈ cs, c ≠ '\n') →
      (s = [] ∨ ∃ t, s = '\n' :: t) → WsOnly s →
      WsOnly ('/' :: '/' :: (cs ++ s))

theorem wsOnly_dropWhile_skip {s : List Char} (h : WsOnly s) :
    WsOnly (s.dropWhile isSkipC) := by
  induction h with
  | nil => exact WsOnly.nil
  | ws hc _ ih =>
    rename_i c s' _
    have : isSkipC c = true := by rcases hc with h' | h' <;> simp [isSkipC, h']
    rw [List.dropWhile_cons_of_pos this]
    exact ih
  | nl hs _ =>
    rename_i s' _
    rw [List.dropWhile_cons_of_neg (by decide)]
    exact WsOnly.nl hs
  | com hcs hnl hs _ =>
    rw [List.dropWhile_cons_of_neg (by decide)]
    exact WsOnly.com hcs hnl hs

theorem dropWhile_append_all {p : Char → Bool} {a : List Char}
    (h : ∀ x ∈ a, p x = true) (b : List Char) :
    (a ++ b).dropWhile p = b.dropWhile p := by
  induction a with
  | nil => rfl
  | cons x xs ih =>
    rw [List.cons_append, List.dropWhile_cons_of_pos (h x (by simp))]
    exact ih (fun y hy => h y (by simp [hy]))

theorem wsOnly_tokensFromRaw :
    ∀ (n : Nat) (s : List Char), s.length ≤ n → WsOnly s →
      tokensFromRaw (rawScan s) = .ok [] := by
  intro n
  induction n with
  | zero =>
    intro s hlen hws
    have hnil : s = [] := by
      cases s with
      | nil => rfl
      | cons c r => simp at hlen
    subst hnil
    rfl
  | succ n ih =>
    intro s hlen hws
    cases hws with
    | nil => rfl
    | ws hc hs =>
      rename_i c s'
      have hm : nextMatch c s' = ("SKIP", (c :: s').takeWhile isSkipC,
          (c :: s').dropWhile isSkipC) := by
        rcases hc with h' | h' <;> subst h' <;> rfl
      rw [rawScan_cons, hm]
      have hskc : isSkipC c = true := by
        rcases hc with h' | h' <;> simp [isSkipC, h']
      simp only [tokensFromRaw]
      norm_num
      rw [List.dropWhile_cons_of_pos hskc]
      refine ih (s'.dropWhile isSkipC) ?_ (wsOnly_dropWhile_skip hs)
      have h1 := dropWhile_length_le isSkipC s'
      simp only [List.length_cons] at hlen
      omega
    | nl hs =>
      rename_i s'
      have hm : nextMatch '\n' s' = ("NEWLINE", ['\n'], s') := rfl
      rw [rawScan_cons, hm]
      simp only [tokensFromRaw]
      norm_num
      refine ih s' ?_ hs
      simp only [List.length_cons] at hlen
      omega
    | com hcs hnl hs =>
      rename_i cs s'
      have hm : nextMatch '/' ('/' :: (cs ++ s')) =
          ("COMMENT", ('/' :: '/' :: (cs ++ s')).takeWhile (fun x => !(x = '\n')),
            ('/' :: '/' :: (cs ++ s')).dropWhile (fun x => !(x = '\n'))) := rfl
      rw [rawScan_cons, hm]
      have hdrop : ('/' :: '/' :: (cs ++ s')).dropWhile (fun x => !(x = '\n')) = s' := by
        have hall : ∀ x ∈ '/' :: '/' :: cs, (fun x => !(x = '\n')) x = true := by
          intro x hx
          simp only [List.mem_cons] at hx
          rcases hx with rfl | rfl | hx
          · decide
          · decide
          · simpa using hcs x hx
        have : ('/' :: '/' :: (cs ++ s')) = ('/' :: '/' :: cs) ++ s' := by simp
        rw [this, dropWhile_append_all hall]
        rcases hnl with h' | ⟨t, h'⟩
        · rw [h']; rfl
        · rw [h']
          rw [List.dropWhile_cons_of_neg (by decide)]
      rw [hdrop]
      simp only [tokensFromRaw]
      norm_num
      refine ih s' ?_ hs
      simp only [List.length_cons, List.length_append] at hlen
      omega

instance {ε α : Type} [DecidableEq ε] [DecidableEq α] : DecidableEq (Except ε α) :=
  fun a b =>
    match a, b with
    | .error e1, .error e2 =>
      if h : e1 = e2 then isTrue (by rw [h])
      else isFalse (fun hc => h (Except.error.inj hc))
    | .error _, .ok _ => isFalse (fun hc => Except.noConfusion hc)
    | .ok _, .error _ => isFalse (fun hc => Except.noConfusion hc)
    | .ok a1, .ok a2 =>
      if h : a1 = a2 then isTrue (by rw [h])
      else isFalse (fun hc => h (Except.ok.inj hc))

/-! ## Shapes for the function-declaration rule (claim C4) -/

theorem bind_ok {α β : Type} {x : M α} {f : α → M β} {s s1 : PState} {a : α}
    (h : x s = (.ok a, s1)) : (x >>= f) s = f a s1 := by
  rw [bind_run, h]

theorem curTok_hit {ts : List Token} {s : PState} {t : Token}
    (h : ts.get? s.pos = some t) : curTok ts s = (.ok t, s) := by
  unfold curTok
  rw [h]

theorem funcName_hit {ts : List Token} {s : PState} {t : Token}
    (h : ts.get? s.pos = some t) (hc : t.1 = "ID" ∨ t.1 = "FUNCTION_KEYWORD") :
    funcName ts s = (.ok (), ⟨s.pos + 1, s.log⟩) := by
  unfold funcName
  simp only [bind_ok (curTok_hit h)]
  rw [if_pos hc]
  rfl

theorem frames_transport {α : Type} {x : M α} (hf : Frames x) {p q : Nat}
    {r : Except PErr α} {lg : List String}
    (h : x ⟨p, []⟩ = (r, ⟨q, lg⟩)) (l : List String) :
    x ⟨p, l⟩ = (r, ⟨q, l ++ lg⟩) := by
  have h2 : x ⟨p, l⟩ =
      ((x ⟨p, []⟩).1, ⟨(x ⟨p, []⟩).2.pos, l ++ (x ⟨p, []⟩).2.log⟩) := hf ⟨p, l⟩
  rw [h] at h2
  exact h2

/-- The tail `(',' TypeKw Identifier)*` of a parameter list, as a token
segment. -/
inductive ParamTail : List Token → Prop
  | nil : ParamTail []
  | cons {t x : String} {rest : List Token} : ParamTail rest →
      ParamTail (("COMMA", ",") :: ("TYPE_KEYWORD", t) :: ("ID", x) :: rest)

/-- `ParamList?`: an optional parameter list
`(TypeKw Identifier (',' TypeKw Identifier)*)?` as a token segment. -/
inductive ParamSeg : List Token → Prop
  | none : ParamSeg []
  | some {t x : String} {rest : List Token} : ParamTail rest →
      ParamSeg (("TYPE_KEYWORD", t) :: ("ID", x) :: rest)

theorem param_tail_accepts {P : List Token} (hP : ParamTail P) :
    ∀ (ts : List Token) (p f : Nat) (l : List String),
      (∀ i, i < P.length → ts.get? (p + i) = P.get? i) →
      ts.get? (p + P.length) = some ("RPAREN", ")") →
      P.length < f →
      param_loop ts f ⟨p, l⟩ = (.ok (), ⟨p + P.length, l⟩) := by
  induction hP with
  | nil =>
    intro ts p f l hidx hrp hf
    cases f with
    | zero => omega
    | succ f =>
      simp only [param_loop]
      rw [bind_ok (curTok_hit (show ts.get? ((⟨p, l⟩ : PState).pos) =
        some ("RPAREN", ")") from hrp))]
      rfl
  | cons hrest ih =>
    rename_i t2 x2 rest
    intro ts p f l hidx hrp hf
    cases f with
    | zero => simp at hf
    | succ f =>
      have g0 : ts.get? p = some ("COMMA", ",") := by
        simpa using hidx 0 (by simp)
      have g1 : ts.get? (p + 1) = some ("TYPE_KEYWORD", t2) := by
        simpa using hidx 1 (by simp)
      have g2 : ts.get? (p + 1 + 1) = some ("ID", x2) := by
        have h4 := hidx 2 (by simp)
        have e : p + 2 = p + 1 + 1 := by omega
        rw [e] at h4
        exact h4
      simp only [List.length_cons] at hrp hf ⊢
      simp [param_loop,
        bind_ok (curTok_hit (show ts.get? ((⟨p, l⟩ : PState).pos) =
          some ("COMMA", ",") from g0)),
        bind_ok (@matchTok_hit ts "COMMA" none ⟨p, l⟩ ("COMMA", ",") g0
          ⟨rfl, Or.inl rfl⟩),
        bind_ok (@matchTok_hit ts "TYPE_KEYWORD" none ⟨p + 1, l⟩ ("TYPE_KEYWORD", t2) g1
          ⟨rfl, Or.inl rfl⟩),
        bind_ok (@matchTok_hit ts "ID" none ⟨p + 1 + 1, l⟩ ("ID", x2) g2
          ⟨rfl, Or.inl rfl⟩)]
      have hidx3 : ∀ i, i < rest.length → ts.get? (p + 1 + 1 + 1 + i) = rest.get? i := by
        intro i hi
        have h4 := hidx (i + 3) (by simp only [List.length_cons]; omega)
        have e : p + (i + 3) = p + 1 + 1 + 1 + i := by omega
        rw [e] at h4
        exact h4
      have hrp3 : ts.get? (p + 1 + 1 + 1 + rest.length) = some ("RPAREN", ")") := by
        have e : p + (rest.length + 1 + 1 + 1) = p + 1 + 1 + 1 + rest.length := by omega
        rw [e] at hrp
        exact hrp
      have hf3 : rest.length < f := by omega
      rw [ih ts (p + 1 + 1 + 1) f l hidx3 hrp3 hf3]
      have e : p + 1 + 1 + 1 + rest.length = p + (rest.length + 1 + 1 + 1) := by omega
      rw [e]

theorem param_seg_accepts {P : List Token} (hP : ParamSeg P)
    (ts : List Token) (p n : Nat) (l : List String)
    (hidx : ∀ i, i < P.length → ts.get? (p + i) = P.get? i)
    (hrp : ts.get? (p + P.length) = some ("RPAREN", ")"))
    (hlen : P.length ≤ n) :
    parse_param_list ts n ⟨p, l⟩ = (.ok (), ⟨p + P.length, l⟩) := by
  cases hP with
  | none =>
    unfold parse_param_list
    rw [bind_ok (curTok_hit (show ts.get? ((⟨p, l⟩ : PState).pos) =
      some ("RPAREN", ")") from hrp))]
    rfl
  | some hrest =>
    rename_i t2 x2 rest
    have g0 : ts.get? p = some ("TYPE_KEYWORD", t2) := by
      simpa using hidx 0 (by simp)
    have g1 : ts.get? (p + 1) = some ("ID", x2) := by
      simpa using hidx 1 (by simp)
    simp only [List.length_cons] at hrp hlen ⊢
    unfold parse_param_list
    simp [bind_ok (curTok_hit (show ts.get? ((⟨p, l⟩ : PState).pos) =
        some ("TYPE_KEYWORD", t2) from g0)),
      bind_ok (@matchTok_hit ts "TYPE_KEYWORD" none ⟨p, l⟩ ("TYPE_KEYWORD", t2) g0
        ⟨rfl, Or.inl rfl⟩),
      bind_ok (@matchTok_hit ts "ID" none ⟨p + 1, l⟩ ("ID", x2) g1
        ⟨rfl, Or.inl rfl⟩)]
    have hidx2 : ∀ i, i < rest.length → ts.get? (p + 1 + 1 + i) = rest.get? i := by
      intro i hi
      have h4 := hidx (i + 2) (by simp only [List.length_cons]; omega)
      have e : p + (i + 2) = p + 1 + 1 + i := by omega
      rw [e] at h4
      exact h4
    have hrp2 : ts.get? (p + 1 + 1 + rest.length) = some ("RPAREN", ")") := by
      have e : p + (rest.length + 1 + 1) = p + 1 + 1 + rest.length := by omega
      rw [e] at hrp
      exact hrp
    have hf2 : rest.length < n := by omega
    rw [param_tail_accepts hrest ts (p + 1 + 1) n l hidx2 hrp2 hf2]
    have e : p + 1 + 1 + rest.length = p + (rest.length + 1 + 1) := by omega
    rw [e]

/-! ## The claims -/

/-- C1, counterexample: in the source text `==`, whose operator characters
are contiguous, the scanner emits two single-character `ASSIGN` tokens and
no `OP` token at all, rather than one two-character operator token: the
`=` punctuation pattern precedes the operator pattern in the alternation
priority order, and Python alternation takes the first match, not the
longest. -/
theorem c1_counterexample :
    tokenize ['=', '='] = .ok [("ASSIGN", "="), ("ASSIGN", "="), ("EOF", "")] ∧
    ∀ t ∈ [(("ASSIGN", "=") : Token), ("ASSIGN", "="), ("EOF", "")], t.1 ≠ "OP" :=
  ⟨by decide, by decide⟩

/-- C1 (amended): at any match position, the contiguous spellings `!=`,
`++` and `--` are each matched as a single operator token by the greedy
operator rule (when not followed by a further operator character), but
`==` is matched as a single-character `ASSIGN` token (`=`), followed by a
second `ASSIGN` at the next position, because the `=` punctuation pattern
has priority over the operator pattern. -/
theorem c1_amended_ops (rest : List Char)
    (h : ∀ c, rest.head? = some c → isOpC c = false) :
    nextMatch '!' ('=' :: rest) = ("OP", ['!', '='], rest) ∧
    nextMatch '+' ('+' :: rest) = ("OP", ['+', '+'], rest) ∧
    nextMatch '-' ('-' :: rest) = ("OP", ['-', '-'], rest) ∧
    nextMatch '=' ('=' :: rest) = ("ASSIGN", ['='], '=' :: rest) := by
  have htw : rest.takeWhile isOpC = [] := by
    cases rest with
    | nil => rfl
    | cons c t =>
      have hc := h c rfl
      simp [List.takeWhile_cons, hc]
  have hdw : rest.dropWhile isOpC = rest := by
    cases rest with
    | nil => rfl
    | cons c t =>
      have hc := h c rfl
      simp [List.dropWhile_cons, hc]
  refine ⟨?_, ?_, ?_, rfl⟩
  · have e1 : nextMatch '!' ('=' :: rest) =
        ("OP", ('!' :: '=' :: rest).takeWhile isOpC,
          ('!' :: '=' :: rest).dropWhile isOpC) := rfl
    rw [e1, List.takeWhile_cons_of_pos (by decide),
      List.takeWhile_cons_of_pos (by decide), htw,
      List.dropWhile_cons_of_pos (by decide),
      List.dropWhile_cons_of_pos (by decide), hdw]
  · have e1 : nextMatch '+' ('+' :: rest) =
        ("OP", ('+' :: '+' :: rest).takeWhile isOpC,
          ('+' :: '+' :: rest).dropWhile isOpC) := rfl
    rw [e1, List.takeWhile_cons_of_pos (by decide),
      List.takeWhile_cons_of_pos (by decide), htw,
      List.dropWhile_cons_of_pos (by decide),
      List.dropWhile_cons_of_pos (by decide), hdw]
  · have e1 : nextMatch '-' ('-' :: rest) =
        ("OP", ('-' :: '-' :: rest).takeWhile isOpC,
          ('-' :: '-' :: rest).dropWhile isOpC) := rfl
    rw [e1, List.takeWhile_cons_of_pos (by decide),
      List.takeWhile_cons_of_pos (by decide), htw,
      List.dropWhile_cons_of_pos (by decide),
      List.dropWhile_cons_of_pos (by decide), hdw]

theorem c1_amended_ops_witness :
    (∀ c, ([] : List Char).head? = some c → isOpC c = false) ∧
    nextMatch '!' ('=' :: []) = ("OP", ['!', '='], []) :=
  ⟨fun c hc => by simp at hc,
   (c1_amended_ops [] (fun c hc => by simp at hc)).1⟩

/-- C2 (code_bug): on `play main() { bench }` the statement recognizer,
on reaching the bare `bench` token, does return with the cursor unchanged
at the `bench` token (position 5) and without signalling an error — but
`parse_statement_list`'s `while` loop then re-examines that same token, so
statement parsing for the enclosing block never terminates: the recognition
run exhausts every amount of fuel instead of producing a verdict (the
Python program loops forever). -/
theorem c2_bench_nontermination :
    tokenize "play main() \x7b bench \x7d".toList = .ok benchToks ∧
    (∀ k l, parse_statement benchToks (k + 1) ⟨5, l⟩ = (.ok (), ⟨5, l⟩)) ∧
    (∀ n l, (parse_program benchToks n ⟨0, l⟩).1 = Except.error PErr.fuel) :=
  ⟨by decide, bench_statement_step, bench_program_allfuel⟩

/-- `tokenize "play main() \x7b announce add(1,2); \x7d"`. -/
def c3toks : List Token :=
  [("FUNCTION_KEYWORD", "play"), ("ID", "main"), ("LPAREN", "("), ("RPAREN", ")"),
   ("LBRACE", "\x7b"), ("OUTPUT_KEYWORD", "announce"), ("ID", "add"), ("LPAREN", "("),
   ("NUMBER", "1"), ("COMMA", ","), ("NUMBER", "2"), ("RPAREN", ")"), ("END", ";"),
   ("RBRACE", "\x7d"), ("EOF", "")]

/-- C3: on `play main() { announce add(1,2); }`, with `add` undeclared,
the recognizer succeeds (no declaration or arity check exists), and the
trace contains the function-call entry strictly before the output entry. -/
theorem c3_call_before_output :
    tokenize "play main() \x7b announce add(1,2); \x7d".toList = .ok c3toks ∧
    (parse_program c3toks 30 ⟨0, []⟩).1 = .ok () ∧
    (parse_program c3toks 30 ⟨0, []⟩).2.log =
      ["[Parser] Starting CR7 Script Parsing...\n", "→ Function call parsed (add)",
       "→ Output parsed", "→ Function parsed",
       "\n[Parser] Parsing completed successfully ✅"] ∧
    ((parse_program c3toks 30 ⟨0, []⟩).2.log.indexOf "→ Function call parsed (add)" <
      (parse_program c3toks 30 ⟨0, []⟩).2.log.indexOf "→ Output parsed") :=
  ⟨by decide, by decide, by decide, by decide⟩

/-- C4, counterexample: `kickoff main() { }` has exactly the claimed
FunctionDecl shape — a function-related keyword heading, an identifier
name, `(`, `)`, and a block — yet the recognizer rejects it, because
`parse_function` requires the heading keyword's lexeme to be `play`. -/
theorem c4_counterexample :
    tokenize "kickoff main() \x7b \x7d".toList =
      .ok [("FUNCTION_KEYWORD", "kickoff"), ("ID", "main"), ("LPAREN", "("),
        ("RPAREN", ")"), ("LBRACE", "\x7b"), ("RBRACE", "\x7d"), ("EOF", "")] ∧
    (parse_program [("FUNCTION_KEYWORD", "kickoff"), ("ID", "main"), ("LPAREN", "("),
        ("RPAREN", ")"), ("LBRACE", "\x7b"), ("RBRACE", "\x7d"), ("EOF", "")] 20 ⟨0, []⟩).1 =
      .error (.diag ⟨"Expected FUNCTION_KEYWORD('play')", "FUNCTION_KEYWORD",
        "kickoff"⟩) :=
  ⟨by decide, by decide⟩

/-- C4 (amended): a function declaration is recognized whenever it has the
shape: heading keyword spelled `play`, a name token that is either a generic
identifier or a function-related keyword (any lexeme), `(`, any optional
parameter list `(TypeKw Id ("," TypeKw Id)*)?`, `)`, `\x7b`, any body the
statement-list rule recognizes at the given fuel, `\x7d`; and a heading
that is a function-related keyword other than `play` is rejected with the
diagnostic Expected FUNCTION_KEYWORD('play') (see also the counterexample). -/
theorem c4_amended_name :
    (∀ (ts : List Token) (n : Nat) (k v : String) (P : List Token)
        (m : Nat) (lB : List String),
      ts.get? 0 = some ("FUNCTION_KEYWORD", "play") →
      ts.get? 1 = some (k, v) →
      (k = "ID" ∨ k = "FUNCTION_KEYWORD") →
      ts.get? 2 = some ("LPAREN", "(") →
      ParamSeg P →
      (ts.drop 3).take P.length = P →
      ts.get? (3 + P.length) = some ("RPAREN", ")") →
      ts.get? (4 + P.length) = some ("LBRACE", "\x7b") →
      P.length ≤ n →
      parse_statement_list ts n ⟨5 + P.length, []⟩ = (.ok (), ⟨m, lB⟩) →
      ts.get? m = some ("RBRACE", "\x7d") →
      ∀ l0, parse_function ts n ⟨0, l0⟩ =
        (.ok (), ⟨m + 1, l0 ++ lB ++ ["→ Function parsed"]⟩)) ∧
    (∀ (ts : List Token) (n : Nat) (l0 : List String) (w : String),
      ts.get? 0 = some ("FUNCTION_KEYWORD", w) → ¬ (w = "play") →
      parse_function ts n ⟨0, l0⟩ =
        (.error (.diag ⟨"Expected FUNCTION_KEYWORD('play')", "FUNCTION_KEYWORD", w⟩),
          ⟨0, l0 ++ [errLine "Expected FUNCTION_KEYWORD('play')"
            "FUNCTION_KEYWORD" w]⟩)) := by
  constructor
  · intro ts n k v P m lB h0 h1 hk h2 hP hPi hrp hlb hlen hb hrb l0
    have hidx : ∀ i, i < P.length → ts.get? (3 + i) = P.get? i := by
      intro i hi
      have h4 := congrArg (fun L => L.get? i) hPi
      simp only [List.get?_eq_getElem?, List.getElem?_take_of_lt hi,
        List.getElem?_drop] at h4
      simp only [List.get?_eq_getElem?]
      exact h4
    have hp2 := param_seg_accepts hP ts 3 n l0 hidx hrp hlen
    have hrp2 : ts.get? (3 + P.length) = some ("RPAREN", ")") := hrp
    have hlb2 : ts.get? (3 + P.length + 1) = some ("LBRACE", "\x7b") := by
      have e : 4 + P.length = 3 + P.length + 1 := by omega
      rw [e] at hlb
      exact hlb
    have hfrB : Frames (parse_statement_list ts n) := (good_stmt_block ts n).1.2.1
    have hb2 : parse_statement_list ts n ⟨3 + P.length + 1 + 1, l0⟩ =
        (.ok (), ⟨m, l0 ++ lB⟩) := by
      have e : 5 + P.length = 3 + P.length + 1 + 1 := by omega
      rw [e] at hb
      exact frames_transport hfrB hb l0
    unfold parse_function
    simp [bind_ok (@matchTok_hit ts "FUNCTION_KEYWORD" (some "play") ⟨0, l0⟩
        ("FUNCTION_KEYWORD", "play") h0 ⟨rfl, Or.inr rfl⟩),
      bind_ok (@funcName_hit ts ⟨1, l0⟩ (k, v) h1 hk),
      bind_ok (@matchTok_hit ts "LPAREN" none ⟨2, l0⟩ ("LPAREN", "(") h2
        ⟨rfl, Or.inl rfl⟩),
      bind_ok hp2,
      bind_ok (@matchTok_hit ts "RPAREN" none ⟨3 + P.length, l0⟩ ("RPAREN", ")") hrp2
        ⟨rfl, Or.inl rfl⟩),
      bind_ok (@matchTok_hit ts "LBRACE" none ⟨3 + P.length + 1, l0⟩ ("LBRACE", "\x7b")
        hlb2 ⟨rfl, Or.inl rfl⟩),
      bind_ok hb2,
      bind_ok (@matchTok_hit ts "RBRACE" none ⟨m, l0 ++ lB⟩ ("RBRACE", "\x7d") hrb
        ⟨rfl, Or.inl rfl⟩),
      logM]
  · intro ts n l0 w h0 hw
    have hc : ¬ ((("FUNCTION_KEYWORD", w) : Token).1 = "FUNCTION_KEYWORD" ∧
        ((some "play" : Option String) = none ∨
          (some "play" : Option String) = some ("FUNCTION_KEYWORD", w).2)) := by
      rintro ⟨-, h | h⟩
      · exact Option.noConfusion h
      · exact hw (Option.some.inj h).symm
    unfold parse_function
    rw [bind_run, matchTok_miss (show ts.get? ((⟨0, l0⟩ : PState).pos) =
      some ("FUNCTION_KEYWORD", w) from h0) hc]
    rfl

/-- Token list for `play kickoff(goal x, flag y) { announce 1; }`. -/
def c4wtoks : List Token :=
  [("FUNCTION_KEYWORD", "play"), ("FUNCTION_KEYWORD", "kickoff"),
   ("LPAREN", "("), ("TYPE_KEYWORD", "goal"), ("ID", "x"), ("COMMA", ","),
   ("TYPE_KEYWORD", "flag"), ("ID", "y"), ("RPAREN", ")"), ("LBRACE", "\x7b"),
   ("OUTPUT_KEYWORD", "announce"), ("NUMBER", "1"), ("END", ";"),
   ("RBRACE", "\x7d"), ("EOF", "")]

/-- The parameter-list segment `goal x, flag y` of the witness input. -/
def c4P : List Token :=
  [("TYPE_KEYWORD", "goal"), ("ID", "x"), ("COMMA", ","),
   ("TYPE_KEYWORD", "flag"), ("ID", "y")]

/-- Witness for the amended claim at a concrete input. -/
theorem c4_amended_name_witness :
    parse_function c4wtoks 20 ⟨0, []⟩ =
      (.ok (), ⟨13 + 1, [] ++ ["→ Output parsed"] ++ ["→ Function parsed"]⟩) ∧
    parse_function [("FUNCTION_KEYWORD", "kickoff"), ("EOF", "")] 20 ⟨0, []⟩ =
      (.error (.diag ⟨"Expected FUNCTION_KEYWORD('play')", "FUNCTION_KEYWORD",
          "kickoff"⟩),
        ⟨0, [] ++ [errLine "Expected FUNCTION_KEYWORD('play')" "FUNCTION_KEYWORD"
          "kickoff"]⟩) :=
  ⟨c4_amended_name.1 c4wtoks 20 "FUNCTION_KEYWORD" "kickoff" c4P 13
      ["→ Output parsed"] rfl rfl (Or.inr rfl) rfl
      (ParamSeg.some (ParamTail.cons ParamTail.nil)) rfl rfl rfl
      (by decide) (by decide) rfl [],
    c4_amended_name.2 [("FUNCTION_KEYWORD", "kickoff"), ("EOF", "")] 20 []
      "kickoff" rfl (by decide)⟩

/-- C5, counterexample: for the source text `"a b"` (a string literal
containing a space) the scanner succeeds, but the concatenation of the
produced lexemes keeps the space inside the string literal, whereas the
claim's removal of all whitespace from the original text deletes it. -/
theorem c5_counterexample :
    tokenize ['"', 'a', ' ', 'b', '"'] = .ok [("STRING", "\"a b\""), ("EOF", "")] ∧
    lexConcat [("STRING", "\"a b\""), ("EOF", "")] ≠
      stripWsComments ['"', 'a', ' ', 'b', '"'] :=
  ⟨by decide, by decide⟩

/-- C5 (amended): concatenating the lexemes of all produced tokens (the
end-of-input token contributing the empty string) equals the original text
with exactly the scanner's discarded match segments — comments, whitespace
runs and newlines — removed; the raw match segments tile the original
text.  This differs from removing every whitespace character of the text:
whitespace inside a string literal survives in its lexeme. -/
theorem c5_lexeme_roundtrip (code : List Char) (ts : List Token)
    (h : tokenize code = .ok ts) :
    lexConcat ts = keptText code ∧
    ((rawScan code).map (fun m => m.2)).flatten = code := by
  refine ⟨?_, rawScan_concat code⟩
  unfold tokenize at h
  rcases hr : tokensFromRaw (rawScan code) with e | l <;> rw [hr] at h
  · simp [Except.map] at h
  · simp only [Except.map, Except.map_ok] at h
    obtain rfl : l ++ [("EOF", "")] = ts := by simpa using h
    unfold lexConcat keptText
    rw [List.map_append, List.flatten_append, tokensFromRaw_lexemes (rawScan code) l hr]
    simp

theorem c5_lexeme_roundtrip_witness :
    tokenize ['"', 'a', ' ', 'b', '"'] = .ok [("STRING", "\"a b\""), ("EOF", "")] ∧
    lexConcat [("STRING", "\"a b\""), ("EOF", "")] = keptText ['"', 'a', ' ', 'b', '"'] :=
  ⟨by decide, (c5_lexeme_roundtrip ['"', 'a', ' ', 'b', '"'] _ (by decide)).1⟩

/-- `tokenize "play main() \x7b x = ; \x7d"`. -/
def c6toks : List Token :=
  [("FUNCTION_KEYWORD", "play"), ("ID", "main"), ("LPAREN", "("), ("RPAREN", ")"),
   ("LBRACE", "\x7b"), ("ID", "x"), ("ASSIGN", "="), ("END", ";"), ("RBRACE", "\x7d"),
   ("EOF", "")]

/-- C6: on `play main() { x = ; }` the recognizer fails with the single
diagnostic whose message names a factor (`Invalid factor`), whose actual
token category is the statement-terminator punctuation (`END`), and whose
actual lexeme is `;`; the output log carries exactly one diagnostic line. -/
theorem c6_invalid_factor :
    tokenize "play main() \x7b x = ; \x7d".toList = .ok c6toks ∧
    (parse_program c6toks 30 ⟨0, []⟩).1 =
      .error (.diag ⟨"Invalid factor", "END", ";"⟩) ∧
    (parse_program c6toks 30 ⟨0, []⟩).2.log =
      ["[Parser] Starting CR7 Script Parsing...\n",
       "[Syntax Error] Invalid factor at token ';' (type END)"] :=
  ⟨by decide, by decide, by decide⟩

/-- C7: every source text consisting only of whitespace characters,
newlines, and line comments is scanned successfully into the token
sequence of exactly one element, the end-of-input token. -/
theorem c7_ws_only (s : List Char) (h : WsOnly s) :
    tokenize s = .ok [("EOF", "")] := by
  unfold tokenize
  rw [wsOnly_tokensFromRaw s.length s (Nat.le_refl _) h]
  rfl

theorem c7_ws_only_witness :
    WsOnly [' ', ' ', '/', '/', ' ', 'h', 'i', '\n', '\t'] ∧
    tokenize [' ', ' ', '/', '/', ' ', 'h', 'i', '\n', '\t'] = .ok [("EOF", "")] := by
  have hcom : WsOnly ('/' :: '/' :: ([' ', 'h', 'i'] ++ ['\n', '\t'])) :=
    @WsOnly.com [' ', 'h', 'i'] ['\n', '\t'] (by decide) (Or.inr ⟨['\t'], rfl⟩)
      (WsOnly.nl (WsOnly.ws (Or.inr rfl) WsOnly.nil))
  have hws : WsOnly [' ', ' ', '/', '/', ' ', 'h', 'i', '\n', '\t'] :=
    WsOnly.ws (Or.inl rfl) (WsOnly.ws (Or.inl rfl) hcom)
  exact ⟨hws, c7_ws_only _ hws⟩

/-- C8: recognition is deterministic in the token sequence alone: two runs
of the recognizer over the same token sequence, each starting from a fresh
cursor at position 0 (and regardless of any previously accumulated output
lines), produce the same verdict, the same final cursor, and emit exactly
the same trace/diagnostic lines. -/
theorem c8_deterministic (ts : List Token) (n : Nat) (l1 l2 : List String) :
    (parse_program ts n ⟨0, l1⟩).1 = (parse_program ts n ⟨0, l2⟩).1 ∧
    (parse_program ts n ⟨0, l1⟩).2.pos = (parse_program ts n ⟨0, l2⟩).2.pos ∧
    (parse_program ts n ⟨0, l1⟩).2.log.drop l1.length =
      (parse_program ts n ⟨0, l2⟩).2.log.drop l2.length := by
  have h1 := (good_parse_program ts n).2.1 ⟨0, l1⟩
  have h2 := (good_parse_program ts n).2.1 ⟨0, l2⟩
  rw [h1, h2]
  simp [List.drop_left]

/-- C9: throughout recognition, the cursor is monotonically non-decreasing
— every grammar procedure's final cursor is at least its entry cursor (so
no procedure ever moves the cursor backward) — and the single
cursor-advancing primitive `match` moves it by exactly one token, doing so
precisely when it succeeds. -/
theorem c9_cursor_monotone (ts : List Token) (n : Nat) :
    (∀ s, s.pos ≤ (parse_program ts n s).2.pos) ∧
    (∀ s, s.pos ≤ (pp_loop ts n s).2.pos) ∧
    (∀ s, s.pos ≤ (parse_meta ts s).2.pos) ∧
    (∀ s, s.pos ≤ (parse_function ts n s).2.pos) ∧
    (∀ s, s.pos ≤ (funcName ts s).2.pos) ∧
    (∀ s, s.pos ≤ (parse_param_list ts n s).2.pos) ∧
    (∀ s, s.pos ≤ (param_loop ts n s).2.pos) ∧
    (∀ s, s.pos ≤ (parse_statement_list ts n s).2.pos) ∧
    (∀ s, s.pos ≤ (parse_statement ts n s).2.pos) ∧
    (∀ s, s.pos ≤ (parse_declaration ts n s).2.pos) ∧
    (∀ s, s.pos ≤ (parse_assignment ts n s).2.pos) ∧
    (∀ s, s.pos ≤ (parse_declaration_in_for ts n s).2.pos) ∧
    (∀ s, s.pos ≤ (parse_assignment_in_for ts n s).2.pos) ∧
    (∀ s, s.pos ≤ (parse_if ts n s).2.pos) ∧
    (∀ s, s.pos ≤ (parse_while ts n s).2.pos) ∧
    (∀ s, s.pos ≤ (parse_for ts n s).2.pos) ∧
    (∀ s, s.pos ≤ (parse_output ts n s).2.pos) ∧
    (∀ s, s.pos ≤ (parse_input ts n s).2.pos) ∧
    (∀ s, s.pos ≤ (parse_return ts n s).2.pos) ∧
    (∀ s, s.pos ≤ (parse_condition ts n s).2.pos) ∧
    (∀ s, s.pos ≤ (parse_expr ts n s).2.pos) ∧
    (∀ s, s.pos ≤ (expr_loop ts n s).2.pos) ∧
    (∀ s, s.pos ≤ (parse_term ts n s).2.pos) ∧
    (∀ s, s.pos ≤ (term_loop ts n s).2.pos) ∧
    (∀ s, s.pos ≤ (parse_factor ts n s).2.pos) ∧
    (∀ s, s.pos ≤ (args_loop ts n s).2.pos) ∧
    (∀ k v s, ((matchTok ts k v s).2.pos = s.pos ∨
        (matchTok ts k v s).2.pos = s.pos + 1) ∧
      ((matchTok ts k v s).2.pos = s.pos + 1 ↔
        ∃ r, (matchTok ts k v s).1 = .ok r)) := by
  refine ⟨(good_parse_program ts n).1, (good_pp_loop ts n).1, (good_parse_meta ts).1,
    (good_parse_function ts n).1, good_funcName.1, (good_parse_param_list ts n).1,
    (good_param_loop ts n).1, (good_stmt_block ts n).1.1,
    (good_stmt_block ts n).2.1.1, (good_parse_declaration ts n).1,
    (good_parse_assignment ts n).1, (good_parse_declaration_in_for ts n).1,
    (good_parse_assignment_in_for ts n).1, (good_stmt_block ts n).2.2.1.1,
    (good_stmt_block ts n).2.2.2.1.1, (good_stmt_block ts n).2.2.2.2.1,
    (good_parse_output ts n).1, (good_parse_input ts n).1,
    (good_parse_return ts n).1, (good_parse_condition ts n).1,
    (good_expr_block ts n).1.1, (good_expr_block ts n).2.1.1,
    (good_expr_block ts n).2.2.1.1, (good_expr_block ts n).2.2.2.1.1,
    (good_expr_block ts n).2.2.2.2.1.1, (good_expr_block ts n).2.2.2.2.2.1,
    fun k v s => ?_⟩
  rcases hg : ts.get? s.pos with _ | t
  · rw [matchTok_oob hg]
    refine ⟨Or.inl rfl, ⟨fun hc => ?_, ?_⟩⟩
    · have h1 : s.pos = s.pos + 1 := hc
      omega
    · rintro ⟨r, hr⟩
      simp at hr
  · by_cases hc : t.1 = k ∧ (v = none ∨ v = some t.2)
    · rw [matchTok_hit hg hc]
      exact ⟨Or.inr rfl, ⟨fun _ => ⟨t.2, rfl⟩, fun _ => rfl⟩⟩
    · rw [matchTok_miss hg hc]
      refine ⟨Or.inl rfl, ⟨fun hx => ?_, ?_⟩⟩
      · have h1 : s.pos = s.pos + 1 := hx
        omega
      · rintro ⟨r, hr⟩
        simp at hr

/-- C10: for every token sequence the scanner produces (always ending in
the end-of-input token), the recognizer's cursor stays strictly below the
length of the token sequence throughout — entering any grammar procedure
with an in-bounds cursor, reading the current token never indexes out of
bounds and the cursor is in bounds again on exit — and a whole recognition
run started at cursor 0 never produces the out-of-bounds outcome. -/
theorem c10_no_oob (code : List Char) (ts : List Token)
    (h : tokenize code = .ok ts) :
    0 < ts.length ∧
    (∀ n s, s.pos < ts.length →
      (parse_program ts n s).1 ≠ Except.error PErr.oob ∧
      (parse_program ts n s).2.pos < ts.length) ∧
    (∀ n s, s.pos < ts.length →
      (parse_statement_list ts n s).1 ≠ Except.error PErr.oob ∧
      (parse_statement_list ts n s).2.pos < ts.length) ∧
    (∀ n s, s.pos < ts.length →
      (parse_expr ts n s).1 ≠ Except.error PErr.oob ∧
      (parse_expr ts n s).2.pos < ts.length) ∧
    (∀ n s, s.pos < ts.length →
      (parse_factor ts n s).1 ≠ Except.error PErr.oob ∧
      (parse_factor ts n s).2.pos < ts.length) ∧
    (∀ n l, (parse_program ts n ⟨0, l⟩).1 ≠ Except.error PErr.oob) := by
  obtain ⟨l, rfl⟩ := tokenize_shape code ts h
  have hw := noEofBeforeLast_append l
  have hlen : 0 < (l ++ [("EOF", "")]).length := by simp
  refine ⟨hlen, ?_, ?_, ?_, ?_, ?_⟩
  · intro n s hs
    exact (good_parse_program _ n).2.2 hw s hs
  · intro n s hs
    exact (good_stmt_block _ n).1.2.2 hw s hs
  · intro n s hs
    exact (good_expr_block _ n).1.2.2 hw s hs
  · intro n s hs
    exact (good_expr_block _ n).2.2.2.2.1.2.2 hw s hs
  · intro n l2
    exact ((good_parse_program _ n).2.2 hw ⟨0, l2⟩ hlen).1

theorem c10_no_oob_witness :
    tokenize "#import stadium".toList =
      .ok [("META_KEYWORD", "#import"), ("META_KEYWORD", "stadium"), ("EOF", "")] ∧
    ∀ n l, (parse_program [("META_KEYWORD", "#import"), ("META_KEYWORD", "stadium"),
      ("EOF", "")] n ⟨0, l⟩).1 ≠ Except.error PErr.oob :=
  ⟨by decide,
   (c10_no_oob "#import stadium".toList
     [("META_KEYWORD", "#import"), ("META_KEYWORD", "stadium"), ("EOF", "")]
     (by decide)).2.2.2.2.2⟩
